import Mathlib

/-!
# CG_Lab_3 renderer: frame synchronisation, command recording, input and start-up

A shallow embedding of `src/renderer.cpp` (class `Renderer`).

* The frame count `kFrameNumber` is declared in `renderer.h`; it is the parameter `N`.
* Slot indices (`frame_index`, the value of `GetCurrentBackBufferIndex`) are `Fin N`: the swap
  chain is created with `BufferCount = kFrameNumber`.
* The fence counters are `UINT64` in the source.  One value is consumed per presented frame, so a
  run cannot come near `2 ^ 64` of them; they are represented by unbounded naturals.  After `k`
  ticks no counter exceeds `k + 1` (`run_fence_values_le`), so within `2 ^ 64 - 2` ticks no
  addition of the source wraps.
* In the render loop the calls wrapped in `ThrowIfFailed` are taken to succeed: a failed call
  throws out of the loop and ends the run.  Failure is modelled where start-up is concerned
  (`LoadPipeline`).
* The GPU side (command queue and fence) is not program text.  It is represented by the fence's
  completed value together with the FIFO of `Signal` commands the queue has not reached yet, and
  every function that observes the fence takes the amount of GPU progress made since the last
  observation as an argument, so that every interleaving of the two timelines is covered.
-/

namespace CGLab

/-! ## Data model -/

/-- A C++ `float`, kept as its IEEE-754 binary32 bit pattern.  The modelled code only stores and
copies floats, it never computes with them. -/
structure float32 where
  bits : Nat
deriving DecidableEq, Repr

/-- The literal `0` converted to `float` (`+0.0f`). -/
def float32.zero : float32 := ⟨0x00000000⟩

/-- The literal `0.0001f`. -/
def float32.step : float32 := ⟨0x38D1B717⟩

/-- The literal `-0.0001f`. -/
def float32.negStep : float32 := ⟨0xB8D1B717⟩

/-- The literal `1.f`. -/
def float32.one : float32 := ⟨0x3F800000⟩

/-- Modelled from the spec: `ColorVertex` is declared in `renderer.h`; the spec gives
"Vertex: position: 3 floats, color: 4 floats", which is also how `LoadAssets` brace-initialises
it. -/
structure ColorVertex where
  position : float32 × float32 × float32
  color : float32 × float32 × float32 × float32
deriving DecidableEq, Repr

/-- The members of `class Renderer` that the modelled functions read or write. -/
structure Renderer (N : Nat) where
  frame_index : Fin N
  fence_values : Fin N → Nat
  vertices : List ColorVertex
  angle : float32
  eye_position : float32 × float32 × float32 × float32
  delta_rotation : float32
  delta_forward : float32

/-- Calls that are visible outside the CPU thread, in program order.  `AllocatorReset` also
records the fence's completed value at the instant of the call. -/
inductive Event (N : Nat) where
  | AllocatorReset (slot : Fin N) (completed : Nat)
  | ExecuteCommandLists (slot : Fin N)
  | Present
  | Signal (value : Nat)
  | Wait (value : Nat)
deriving DecidableEq, Repr

/-- The two resource states `PopulateCommandList` moves a render target between. -/
inductive ResourceState where
  | PRESENT
  | RENDER_TARGET
deriving DecidableEq, Repr

/-- A call made on `command_list` after its `Reset`.  Render targets and their RTV descriptors
are named by their slot; the other arguments are fixed objects of the renderer. -/
inductive Command (N : Nat) where
  | SetGraphicsRootSignature
  | SetDescriptorHeaps
  | SetGraphicsRootDescriptorTable
  | RSSetViewports
  | RSSetScissorRects
  | ResourceBarrier (render_target : Fin N) (before after : ResourceState)
  | OMSetRenderTargets (rtv : Fin N)
  | ClearRenderTargetView (rtv : Fin N)
  | IASetPrimitiveTopology
  | IASetVertexBuffers
  | DrawInstanced (VertexCountPerInstance InstanceCount StartVertexLocation
      StartInstanceLocation : Nat)
  | Close
deriving DecidableEq, Repr

/-- The renderer together with the device objects it synchronises with.
`completed` is `fence->GetCompletedValue()`, `pending` holds the values of the `Signal` commands
the queue has not reached yet (oldest first), `command_list` holds the calls made on the command
list since its last `Reset`, `trace` is the history of calls. -/
structure World (N : Nat) extends Renderer N where
  completed : Nat
  pending : List Nat
  command_list : List (Command N)
  trace : List (Event N)

/-! ## Device primitives -/

/-- The GPU reaches up to `g` further `Signal` commands; each one sets the fence to its value. -/
def process : Nat → Nat → List Nat → Nat × List Nat
  | 0, c, q => (c, q)
  | _ + 1, c, [] => (c, [])
  | g + 1, _, v :: q => process g v q

/-- The GPU keeps going until the fence has reached `v`; `none` when the queue runs dry first
(the waiting thread never wakes up). -/
def waitUntil (v : Nat) : List Nat → Nat → Option (Nat × List Nat)
  | [], c => if v ≤ c then some (c, []) else none
  | x :: q, c => if v ≤ c then some (c, x :: q) else waitUntil v q x

/-- GPU progress by `g` queue entries. -/
def World.gpuProgress {N : Nat} (g : Nat) (w : World N) : World N :=
  { w with completed := (process g w.completed w.pending).1,
           pending := (process g w.completed w.pending).2 }

/-- `command_queue->Signal(fence.Get(), v)`: asynchronous, appended to the queue. -/
def World.Signal {N : Nat} (v : Nat) (w : World N) : World N :=
  { w with pending := w.pending ++ [v], trace := w.trace ++ [Event.Signal v] }

/-- `fence->SetEventOnCompletion(v, fence_event)` followed by
`WaitForSingleObjectEx(fence_event, INFINITE, false)`.  The GPU may progress by `g` entries
before the event is registered. -/
def World.WaitForFence {N : Nat} (v g : Nat) (w : World N) : Option (World N) :=
  let w1 := w.gpuProgress g
  (waitUntil v w1.pending w1.completed).map fun cq =>
    { w1 with completed := cq.1, pending := cq.2, trace := w1.trace ++ [Event.Wait v] }

/-! ## Frame synchronisation -/

/-- `Renderer::WaitForGPU`.  `g` is the GPU progress between the `Signal` and the registration of
the event.  The increment is the source's `UINT64` increment as long as the counter is below
`2 ^ 64 - 1`. -/
def WaitForGPU {N : Nat} (g : Nat) (w : World N) : Option (World N) := do
  -- command_queue->Signal(fence.Get(), fence_values[frame_index])
  let w := w.Signal (w.fence_values w.frame_index)
  -- fence->SetEventOnCompletion(fence_values[frame_index], fence_event); WaitForSingleObjectEx
  let w ← w.WaitForFence (w.fence_values w.frame_index) g
  -- fence_values[frame_index]++
  pure { w with fence_values :=
    Function.update w.fence_values w.frame_index (w.fence_values w.frame_index + 1) }

/-- What the environment contributes to one `MoveToNextFrame`: GPU progress before
`GetCompletedValue`, the index `GetCurrentBackBufferIndex` returns, and GPU progress between the
comparison and the event registration. -/
structure Move (N : Nat) where
  back_buffer : Fin N
  gpu_before_query : Nat
  gpu_before_wait : Nat

/-- `Renderer::MoveToNextFrame`. -/
def MoveToNextFrame {N : Nat} (m : Move N) (w : World N) : Option (World N) := do
  let current_fence_value := w.fence_values w.frame_index
  -- command_queue->Signal(fence.Get(), current_fence_value)
  let w := w.Signal current_fence_value
  -- frame_index = swap_chain->GetCurrentBackBufferIndex()
  let w := { w with frame_index := m.back_buffer }
  let w := w.gpuProgress m.gpu_before_query
  -- if (fence->GetCompletedValue() < fence_values[frame_index]) { SetEventOnCompletion; Wait }
  let w ← if w.completed < w.fence_values w.frame_index then
      w.WaitForFence (w.fence_values w.frame_index) m.gpu_before_wait
    else pure w
  -- fence_values[frame_index] = current_fence_value + 1
  pure { w with fence_values :=
    Function.update w.fence_values w.frame_index (current_fence_value + 1) }

/-! ## Command recording and the render loop -/

/-- `Renderer::PopulateCommandList`.  The GPU may have progressed by `g` queue entries when the
allocator of the active slot is reset. -/
def PopulateCommandList {N : Nat} (g : Nat) (w : World N) : World N :=
  let w := w.gpuProgress g
  -- command_allocators[frame_index]->Reset()
  let w := { w with trace := w.trace ++ [Event.AllocatorReset w.frame_index w.completed] }
  -- command_list->Reset(command_allocators[frame_index].Get(), pipeline_state.Get())
  let w := { w with command_list := [] }
  let w := { w with command_list := w.command_list ++ [Command.SetGraphicsRootSignature] }
  let w := { w with command_list := w.command_list ++ [Command.SetDescriptorHeaps] }
  let w := { w with command_list := w.command_list ++ [Command.SetGraphicsRootDescriptorTable] }
  let w := { w with command_list := w.command_list ++ [Command.RSSetViewports] }
  let w := { w with command_list := w.command_list ++ [Command.RSSetScissorRects] }
  let w := { w with command_list := w.command_list ++
    [Command.ResourceBarrier w.frame_index ResourceState.PRESENT ResourceState.RENDER_TARGET] }
  let w := { w with command_list := w.command_list ++ [Command.OMSetRenderTargets w.frame_index] }
  let w := { w with command_list :=
    w.command_list ++ [Command.ClearRenderTargetView w.frame_index] }
  let w := { w with command_list := w.command_list ++ [Command.IASetPrimitiveTopology] }
  let w := { w with command_list := w.command_list ++ [Command.IASetVertexBuffers] }
  let w := { w with command_list :=
    w.command_list ++ [Command.DrawInstanced w.vertices.length 1 0 0] }
  let w := { w with command_list := w.command_list ++
    [Command.ResourceBarrier w.frame_index ResourceState.RENDER_TARGET ResourceState.PRESENT] }
  { w with command_list := w.command_list ++ [Command.Close] }

/-- What the environment contributes to one `OnRender`. -/
structure Tick (N : Nat) where
  gpu_before_reset : Nat
  move : Move N

/-- `Renderer::OnRender`. -/
def OnRender {N : Nat} (t : Tick N) (w : World N) : Option (World N) := do
  let w := PopulateCommandList t.gpu_before_reset w
  -- command_queue->ExecuteCommandLists(_countof(lists), lists): the list recorded for the slot
  let w := { w with trace := w.trace ++ [Event.ExecuteCommandLists w.frame_index] }
  -- swap_chain->Present(0, 0)
  let w := { w with trace := w.trace ++ [Event.Present] }
  MoveToNextFrame t.move w

/-- `Renderer::OnDestroy` (closing the event handle has no effect on the modelled state). -/
def OnDestroy {N : Nat} (g : Nat) (w : World N) : Option (World N) :=
  WaitForGPU g w

/-- The state in which `LoadAssets` reaches its final `WaitForGPU`: the members of `r` as set up
so far, all fence values zero, a fence created with initial value `0`, nothing submitted. -/
def World.init {N : Nat} (r : Renderer N) : World N :=
  { r with
    fence_values := fun _ => 0, completed := 0, pending := [], command_list := [], trace := [] }

/-- Start-up: the `WaitForGPU` that ends `LoadAssets`. -/
def startup {N : Nat} (r : Renderer N) (g : Nat) : Option (World N) :=
  WaitForGPU g (World.init r)

/-- Start-up followed by one `OnRender` per element of `ticks`. -/
def run {N : Nat} (r : Renderer N) (g : Nat) (ticks : List (Tick N)) : Option (World N) :=
  (startup r g).bind fun w => ticks.foldlM (fun w t => OnRender t w) w

/-- Start-up followed by one `MoveToNextFrame` per element of `moves`. -/
def advance {N : Nat} (r : Renderer N) (g : Nat) (moves : List (Move N)) : Option (World N) :=
  (startup r g).bind fun w => moves.foldlM (fun w m => MoveToNextFrame m w) w

/-! ## Reading a trace -/

/-- The values passed to `command_queue->Signal`, oldest first. -/
def signals {N : Nat} (t : List (Event N)) : List Nat :=
  t.filterMap fun e => match e with
    | Event.Signal v => some v
    | _ => none

/-- Bookkeeping while reading a trace: the slot whose command list has been submitted and is
still waiting for the `Signal` that follows it, and for each slot the value signalled right after
its most recent submission. -/
structure Ledger (N : Nat) where
  awaiting : Option (Fin N)
  required : Fin N → Option Nat

/-- Reading one event. -/
def Ledger.step {N : Nat} (l : Ledger N) : Event N → Ledger N
  | Event.ExecuteCommandLists s => { l with awaiting := some s }
  | Event.Signal v =>
    match l.awaiting with
    | some s => { awaiting := none, required := Function.update l.required s (some v) }
    | none => l
  | _ => l

/-- The ledger after reading all of `t`. -/
def ledger {N : Nat} (t : List (Event N)) : Ledger N :=
  t.foldl Ledger.step { awaiting := none, required := fun _ => none }

/-- The value signalled right after the most recent submission of `slot` in `t`, if the slot has
been submitted at all. -/
def lastSubmissionSignal {N : Nat} (t : List (Event N)) (slot : Fin N) : Option Nat :=
  (ledger t).required slot

/-- No allocator is reset while the fence is below the value signalled after the slot's most
recent submission. -/
def NoHazard {N : Nat} (t : List (Event N)) : Prop :=
  ∀ (i : Nat) (slot : Fin N) (c : Nat), t[i]? = some (Event.AllocatorReset slot c) →
    ∀ v, lastSubmissionSignal (t.take i) slot = some v → v ≤ c

/-! ## Keyboard input -/

/-- `constexpr auto A_CODE = 0x41 - 'a';` -/
def A_CODE : Int := 0x41 - ('a'.toNat : Int)

/-- `Renderer::OnKeyDown`; `key` is a `UINT8`. -/
def OnKeyDown {N : Nat} (key : Fin 256) (r : Renderer N) : Renderer N :=
  if (key.val : Int) = A_CODE + ('d'.toNat : Int) then
    { r with delta_rotation := float32.step }
  else if (key.val : Int) = A_CODE + ('a'.toNat : Int) then
    { r with delta_rotation := float32.negStep }
  else if (key.val : Int) = A_CODE + ('w'.toNat : Int) then
    { r with delta_forward := float32.step }
  else if (key.val : Int) = A_CODE + ('s'.toNat : Int) then
    { r with delta_forward := float32.negStep }
  else r

/-- `Renderer::OnKeyUp`; `key` is a `UINT8`. -/
def OnKeyUp {N : Nat} (key : Fin 256) (r : Renderer N) : Renderer N :=
  if (key.val : Int) = A_CODE + ('d'.toNat : Int) ∨
      (key.val : Int) = A_CODE + ('a'.toNat : Int) then
    { r with delta_rotation := float32.zero }
  else if (key.val : Int) = A_CODE + ('w'.toNat : Int) ∨
      (key.val : Int) = A_CODE + ('s'.toNat : Int) then
    { r with delta_forward := float32.zero }
  else r

/-! ## Reading a recorded command list -/

/-- Draw calls. -/
def Command.isDraw {N : Nat} : Command N → Bool
  | Command.DrawInstanced _ _ _ _ => true
  | _ => false

/-- Resource-state transitions. -/
def Command.isBarrier {N : Nat} : Command N → Bool
  | Command.ResourceBarrier _ _ _ => true
  | _ => false

/-- Render-target clears. -/
def Command.isClear {N : Nat} : Command N → Bool
  | Command.ClearRenderTargetView _ => true
  | _ => false

/-- Calls that neither draw, clear, change a resource state nor close the list. -/
def Command.isSetup {N : Nat} (c : Command N) : Bool :=
  !c.isDraw && !c.isBarrier && !c.isClear && c != Command.Close

/-! ## Pipeline start-up -/

/-- A Windows `HRESULT` (a signed 32-bit status code). -/
abbrev HRESULT := Int

/-- `S_OK`. -/
def S_OK : HRESULT := 0

/-- `E_OUTOFMEMORY`, `0x8007000E` read as a signed 32-bit value. -/
def E_OUTOFMEMORY : HRESULT := 0x8007000E - 2 ^ 32

/-- `DXGI_ERROR_INVALID_CALL`, `0x887A0001` read as a signed 32-bit value. -/
def DXGI_ERROR_INVALID_CALL : HRESULT := 0x887A0001 - 2 ^ 32

/-- The SDK test `FAILED(hr)`, that is `hr < 0`. -/
def FAILED (hr : HRESULT) : Bool := decide (hr < 0)

/-- The SDK test `SUCCEEDED(hr)`, that is `hr >= 0`. -/
def SUCCEEDED (hr : HRESULT) : Bool := decide (0 ≤ hr)

/-- Modelled from the spec: `ThrowIfFailed` is declared outside `renderer.cpp`; by the spec a
failed creation call is fatal, start-up is aborted.  A failed `HRESULT` is thrown, a successful
one lets execution continue. -/
def ThrowIfFailed (hr : HRESULT) : Except HRESULT Unit :=
  if FAILED hr then Except.error hr else Except.ok ()

/-- A loop whose body is one `ThrowIfFailed` per result, in order. -/
def ThrowIfAnyFailed : List HRESULT → Except HRESULT Unit
  | [] => Except.ok ()
  | hr :: rest => do
    ThrowIfFailed hr
    ThrowIfAnyFailed rest

/-- What the platform answers to the calls of `LoadPipeline`.  `adapters` lists the adapters
`EnumAdapters1` enumerates before it reports `DXGI_ERROR_NOT_FOUND`, each with the result of the
probing `D3D12CreateDevice(adapter, ..., nullptr)`; `D3D12CreateDevice` is the result of the
creating call for the adapter the loop ends on (`none`: no adapter, `hardware_adapter` is
null).  `CreateSwapChainForHwnd` receives `command_queue.Get()` as its device argument; its
answer depends on whether that pointer is a queue (`true`) or null (`false`), and DXGI requires
the argument not to be null: `null_queue_rejected`. -/
structure PipelineCalls (N : Nat) where
  CreateDXGIFactory2 : HRESULT
  adapters : List HRESULT
  D3D12CreateDevice : Option Nat → HRESULT
  CreateCommandAllocator : Fin N → HRESULT
  CreateCommandQueue : HRESULT
  CreateSwapChainForHwnd : Bool → HRESULT
  null_queue_rejected : FAILED (CreateSwapChainForHwnd false) = true
  MakeWindowAssociation : HRESULT
  As : HRESULT
  GetCurrentBackBufferIndex : Fin N
  CreateDescriptorHeapRTV : HRESULT
  GetBuffer : Fin N → HRESULT
  CreateDescriptorHeapCBV : HRESULT

/-- What `LoadPipeline` leaves behind when it returns: the adapter chosen, whether
`command_queue` holds a queue, and `frame_index`. -/
structure Pipeline (N : Nat) where
  hardware_adapter : Option Nat
  command_queue : Bool
  frame_index : Fin N
deriving DecidableEq, Repr

/-- `Renderer::LoadPipeline` (release build: the `_DEBUG` block only switches the debug layer
on). -/
def LoadPipeline {N : Nat} (api : PipelineCalls N) : Except HRESULT (Pipeline N) := do
  ThrowIfFailed api.CreateDXGIFactory2
  -- while (DXGI_ERROR_NOT_FOUND != EnumAdapters1(...)) { if (SUCCEEDED(probe)) break; ... }
  let hardware_adapter := api.adapters.findIdx? SUCCEEDED
  ThrowIfFailed (api.D3D12CreateDevice hardware_adapter)
  ThrowIfAnyFailed ((List.finRange N).map api.CreateCommandAllocator)
  -- device->CreateCommandQueue(&cmd_queue_desc, IID_PPV_ARGS(&command_queue)); the HRESULT is
  -- not looked at, command_queue stays null when the call fails
  let command_queue := SUCCEEDED api.CreateCommandQueue
  -- gi_factory->CreateSwapChainForHwnd(command_queue.Get(), ...)
  ThrowIfFailed (api.CreateSwapChainForHwnd command_queue)
  ThrowIfFailed api.MakeWindowAssociation
  ThrowIfFailed api.As
  let frame_index := api.GetCurrentBackBufferIndex
  ThrowIfFailed api.CreateDescriptorHeapRTV
  ThrowIfAnyFailed ((List.finRange N).map api.GetBuffer)
  ThrowIfFailed api.CreateDescriptorHeapCBV
  pure { hardware_adapter := hardware_adapter, command_queue := command_queue,
         frame_index := frame_index }

/-- A platform on which every call of `LoadPipeline` succeeds, with one usable adapter and back
buffer `idx`. -/
def allSucceed {N : Nat} (idx : Fin N) : PipelineCalls N where
  CreateDXGIFactory2 := S_OK
  adapters := [S_OK]
  D3D12CreateDevice := fun _ => S_OK
  CreateCommandAllocator := fun _ => S_OK
  CreateCommandQueue := S_OK
  CreateSwapChainForHwnd := fun queue => if queue then S_OK else DXGI_ERROR_INVALID_CALL
  null_queue_rejected := by decide
  MakeWindowAssociation := S_OK
  As := S_OK
  GetCurrentBackBufferIndex := idx
  CreateDescriptorHeapRTV := S_OK
  GetBuffer := fun _ => S_OK
  CreateDescriptorHeapCBV := S_OK

/-- The platform of `allSucceed` on which `CreateCommandQueue` fails with `E_OUTOFMEMORY`. -/
def queueFails {N : Nat} (idx : Fin N) : PipelineCalls N :=
  { allSucceed idx with CreateCommandQueue := E_OUTOFMEMORY }

/-- Every creation call has succeeded: the factory, the device on the adapter the loop ends on,
each command allocator, the command queue, the swap chain (created on that queue), the RTV heap,
each buffer retrieval and the CBV heap; so have the two other checked calls. -/
def AllCreated {N : Nat} (api : PipelineCalls N) : Prop :=
  FAILED api.CreateDXGIFactory2 = false ∧
  FAILED (api.D3D12CreateDevice (api.adapters.findIdx? SUCCEEDED)) = false ∧
  (∀ i, FAILED (api.CreateCommandAllocator i) = false) ∧
  FAILED api.CreateCommandQueue = false ∧
  FAILED (api.CreateSwapChainForHwnd (SUCCEEDED api.CreateCommandQueue)) = false ∧
  FAILED api.MakeWindowAssociation = false ∧
  FAILED api.As = false ∧
  FAILED api.CreateDescriptorHeapRTV = false ∧
  (∀ i, FAILED (api.GetBuffer i) = false) ∧
  FAILED api.CreateDescriptorHeapCBV = false

/-! ## Mesh flattening

The loader's types (`tinyobj::attrib_t`, `shape_t`, `mesh_t`, `index_t`, `material_t`) are kept
as far as `LoadAssets` reads them.  An element access outside a vector is undefined behaviour in
the source; here it makes the function fail (`none`). -/

/-- `tinyobj::index_t` (only `vertex_index` is read). -/
structure index_t where
  vertex_index : Int
deriving DecidableEq, Repr

/-- `tinyobj::mesh_t`. -/
structure mesh_t where
  indices : List index_t
  num_face_vertices : List Nat
  material_ids : List Int
deriving DecidableEq, Repr

/-- `tinyobj::shape_t`. -/
structure shape_t where
  mesh : mesh_t
deriving DecidableEq, Repr

/-- `tinyobj::material_t` (only `diffuse[0..2]` is read). -/
structure material_t where
  diffuse : float32 × float32 × float32
deriving DecidableEq, Repr

/-- `tinyobj::attrib_t` (only `vertices` is read). -/
structure attrib_t where
  vertices : List float32
deriving DecidableEq, Repr

/-- `xs[i]` for an `int` index `i`. -/
def elemAt {α : Type} (xs : List α) (i : Int) : Option α :=
  if 0 ≤ i then xs[i.toNat]? else none

/-- The body of the innermost loop of `LoadAssets`: the vertex pushed for vertex `v` of face `f`
of a mesh, `index_offset` being the position of the face's first index. -/
def readVertex (attrib : attrib_t) (materials : List material_t) (mesh : mesh_t)
    (f index_offset v : Nat) : Option ColorVertex := do
  let idx ← mesh.indices[index_offset + v]?
  let vx ← elemAt attrib.vertices (3 * idx.vertex_index + 0)
  let vy ← elemAt attrib.vertices (3 * idx.vertex_index + 1)
  let vz ← elemAt attrib.vertices (3 * idx.vertex_index + 2)
  let material_id ← mesh.material_ids[f]?
  let m ← elemAt materials material_id
  pure { position := (vx, vy, vz),
         color := (m.diffuse.1, m.diffuse.2.1, m.diffuse.2.2, float32.one) }

/-- The loop over the vertices of one face: `for (size_t v = 0; v < fv; v++)`. -/
def faceLoop (attrib : attrib_t) (materials : List material_t) (mesh : mesh_t)
    (f index_offset fv : Nat) (vertices : List ColorVertex) : Option (List ColorVertex) :=
  (List.range fv).foldlM (fun vertices v => do
    let cv ← readVertex attrib materials mesh f index_offset v
    pure (vertices ++ [cv])) vertices

/-- One iteration of the loop over faces; the state is `(index_offset, vertices)`. -/
def faceStep (attrib : attrib_t) (materials : List material_t) (mesh : mesh_t)
    (st : Nat × List ColorVertex) (f : Nat) : Option (Nat × List ColorVertex) := do
  let fv ← mesh.num_face_vertices[f]?
  let vertices ← faceLoop attrib materials mesh f st.1 fv st.2
  pure (st.1 + fv, vertices)

/-- The loop over the faces of one shape, starting with `index_offset = 0`. -/
def meshLoop (attrib : attrib_t) (materials : List material_t) (mesh : mesh_t)
    (vertices : List ColorVertex) : Option (List ColorVertex) :=
  ((List.range mesh.num_face_vertices.length).foldlM (faceStep attrib materials mesh)
    (0, vertices)).map Prod.snd

/-- The loop over shapes of `LoadAssets`, pushing onto `vertices`. -/
def loadVertices (attrib : attrib_t) (shapes : List shape_t) (materials : List material_t)
    (vertices : List ColorVertex) : Option (List ColorVertex) :=
  shapes.foldlM (fun vertices shape => meshLoop attrib materials shape.mesh vertices) vertices

/-- The effect of the flattening loop of `LoadAssets` on the renderer. -/
def LoadAssetsVertices {N : Nat} (attrib : attrib_t) (shapes : List shape_t)
    (materials : List material_t) (r : Renderer N) : Option (Renderer N) :=
  (loadVertices attrib shapes materials r.vertices).map fun vs => { r with vertices := vs }

/-! ### What the flattening is expected to produce -/

/-- Position of the first index of face `f`: the vertex counts of the faces before it. -/
def faceOffset (mesh : mesh_t) (f : Nat) : Nat :=
  (mesh.num_face_vertices.take f).sum

/-- The `vertex_index` of vertex `v` of face `f`. -/
def vertexIndexOf (mesh : mesh_t) (f v : Nat) : Int :=
  (mesh.indices.getD (faceOffset mesh f + v) { vertex_index := 0 }).vertex_index

/-- Vertex `v` of face `f` can be read: its index entry and the face's material id exist, the
vertex index addresses three coordinates of `attrib.vertices`, and the material id addresses a
material. -/
def InRangeAt (attrib : attrib_t) (materials : List material_t) (mesh : mesh_t)
    (f v : Nat) : Prop :=
  faceOffset mesh f + v < mesh.indices.length ∧
  f < mesh.material_ids.length ∧
  0 ≤ vertexIndexOf mesh f v ∧
  3 * (vertexIndexOf mesh f v).toNat + 2 < attrib.vertices.length ∧
  0 ≤ mesh.material_ids.getD f 0 ∧
  (mesh.material_ids.getD f 0).toNat < materials.length

/-- Every vertex of every face of every shape is in range. -/
def MeshInRange (attrib : attrib_t) (shapes : List shape_t) (materials : List material_t) :
    Prop :=
  ∀ shape ∈ shapes, ∀ f < shape.mesh.num_face_vertices.length,
    ∀ v < shape.mesh.num_face_vertices.getD f 0, InRangeAt attrib materials shape.mesh f v

/-- The indexed position together with the face material's diffuse RGB and alpha 1. -/
def expectedVertex (attrib : attrib_t) (materials : List material_t) (mesh : mesh_t)
    (f v : Nat) : ColorVertex :=
  let i := (vertexIndexOf mesh f v).toNat
  let m := materials.getD (mesh.material_ids.getD f 0).toNat
    { diffuse := (float32.zero, float32.zero, float32.zero) }
  { position := (attrib.vertices.getD (3 * i) float32.zero,
                 attrib.vertices.getD (3 * i + 1) float32.zero,
                 attrib.vertices.getD (3 * i + 2) float32.zero),
    color := (m.diffuse.1, m.diffuse.2.1, m.diffuse.2.2, float32.one) }

/-- The vertices of face `f`, in vertex order. -/
def expectedFace (attrib : attrib_t) (materials : List material_t) (mesh : mesh_t)
    (f : Nat) : List ColorVertex :=
  (List.range (mesh.num_face_vertices.getD f 0)).map (expectedVertex attrib materials mesh f)

/-- The vertices of a mesh, in face order. -/
def expectedMesh (attrib : attrib_t) (materials : List material_t) (mesh : mesh_t) :
    List ColorVertex :=
  (List.range mesh.num_face_vertices.length).flatMap (expectedFace attrib materials mesh)

/-- The vertices of all shapes, in shape order. -/
def expectedVertices (attrib : attrib_t) (shapes : List shape_t)
    (materials : List material_t) : List ColorVertex :=
  shapes.flatMap fun shape => expectedMesh attrib materials shape.mesh

/-- The number of face vertices of all faces of all shapes. -/
def totalFaceVertices (shapes : List shape_t) : Nat :=
  (shapes.map fun shape => shape.mesh.num_face_vertices.sum).sum

instance decidableInRangeAt (attrib : attrib_t) (materials : List material_t) (mesh : mesh_t)
    (f v : Nat) : Decidable (InRangeAt attrib materials mesh f v) := by
  unfold InRangeAt
  infer_instance

instance decidableMeshInRange (attrib : attrib_t) (shapes : List shape_t)
    (materials : List material_t) : Decidable (MeshInRange attrib shapes materials) := by
  unfold MeshInRange
  infer_instance

/-! ## Sample inputs -/

/-- Four positions (twelve coordinates). -/
def sampleAttrib : attrib_t where
  vertices := [⟨0x00000000⟩, ⟨0x00000000⟩, ⟨0x00000000⟩,
               ⟨0x3F800000⟩, ⟨0x00000000⟩, ⟨0x00000000⟩,
               ⟨0x3F800000⟩, ⟨0x3F800000⟩, ⟨0x00000000⟩,
               ⟨0x00000000⟩, ⟨0x3F800000⟩, ⟨0x40000000⟩]

/-- Two materials. -/
def sampleMaterials : List material_t :=
  [{ diffuse := (⟨0x3F800000⟩, ⟨0x00000000⟩, ⟨0x00000000⟩) },
   { diffuse := (⟨0x00000000⟩, ⟨0x3F000000⟩, ⟨0x3F800000⟩) }]

/-- One shape made of three triangles. -/
def sampleShapes : List shape_t :=
  [{ mesh := { indices := [⟨0⟩, ⟨1⟩, ⟨2⟩, ⟨0⟩, ⟨2⟩, ⟨3⟩, ⟨1⟩, ⟨2⟩, ⟨3⟩],
               num_face_vertices := [3, 3, 3],
               material_ids := [0, 0, 1] } }]

/-- A renderer at rest with the given back buffer and vertex list. -/
def sampleRenderer {N : Nat} (f0 : Fin N) (vertices : List ColorVertex) : Renderer N where
  frame_index := f0
  fence_values := fun _ => 0
  vertices := vertices
  angle := float32.zero
  eye_position := (float32.zero, float32.zero, float32.zero, float32.zero)
  delta_rotation := float32.zero
  delta_forward := float32.zero

/-- A move to back buffer `idx` during which the GPU makes no progress of its own. -/
def sampleMove {N : Nat} (idx : Fin N) : Move N where
  back_buffer := idx
  gpu_before_query := 0
  gpu_before_wait := 0

/-- A tick that ends on back buffer `idx` during which the GPU makes no progress of its own. -/
def sampleTick {N : Nat} (idx : Fin N) : Tick N where
  gpu_before_reset := 0
  move := sampleMove idx

/-- The state in which `LoadAssets` reaches its `WaitForGPU`, for two slots and back buffer 0. -/
def sampleWorld : World 2 := World.init (sampleRenderer (0 : Fin 2) [])

/-! ## Invariants -/

/-- What holds of the synchronisation state between any two calls of the render loop: the fence
only moves forward through the queue, everything signalled so far lies below the value kept for
the active slot, that value is the largest one kept, and the values signalled so far are
`0, 1, 2, ...` in this order. -/
structure Inv {N : Nat} (w : World N) : Prop where
  sorted : (w.completed :: w.pending).Pairwise (· ≤ ·)
  below : ∀ x ∈ w.completed :: w.pending, x < w.fence_values w.frame_index
  top : ∀ i, w.fence_values i ≤ w.fence_values w.frame_index
  log : signals w.trace = List.range (w.fence_values w.frame_index)

/-- The state `MoveToNextFrame` returns when it does not wait. -/
def movedWithoutWait {N : Nat} (m : Move N) (w : World N) : World N :=
  let pq := process m.gpu_before_query w.completed (w.pending ++ [w.fence_values w.frame_index])
  { w with
    frame_index := m.back_buffer
    fence_values :=
      Function.update w.fence_values m.back_buffer (w.fence_values w.frame_index + 1)
    completed := pq.1
    pending := pq.2
    trace := w.trace ++ [Event.Signal (w.fence_values w.frame_index)] }

/-- The state `MoveToNextFrame` returns when it waits and the wait ends with the fence and queue
in state `cq`. -/
def movedAfterWait {N : Nat} (m : Move N) (w : World N) (cq : Nat × List Nat) : World N :=
  { w with
    frame_index := m.back_buffer
    fence_values :=
      Function.update w.fence_values m.back_buffer (w.fence_values w.frame_index + 1)
    completed := cq.1
    pending := cq.2
    trace := w.trace ++ [Event.Signal (w.fence_values w.frame_index),
      Event.Wait (w.fence_values m.back_buffer)] }

/-- The fence value `MoveToNextFrame` reads with `GetCompletedValue`: the completed value after
its `Signal` has been queued and the GPU has made the progress it makes until the query. -/
def completedAtQuery {N : Nat} (m : Move N) (w : World N) : Nat :=
  ((w.Signal (w.fence_values w.frame_index)).gpuProgress m.gpu_before_query).completed

/-- The fence and queue when `MoveToNextFrame` registers its event. -/
def queueAtWait {N : Nat} (m : Move N) (w : World N) : Nat × List Nat :=
  let pq := process m.gpu_before_query w.completed (w.pending ++ [w.fence_values w.frame_index])
  process m.gpu_before_wait pq.1 pq.2

/-- What links the trace read so far to the synchronisation state: no submission is waiting for
its signal, the value signalled after the active slot's last submission has been reached by the
fence, the one of any other slot is at most the value kept for that slot, and no hazard has
occurred. -/
structure Tracked {N : Nat} (w : World N) : Prop where
  idle : (ledger w.trace).awaiting = none
  covered : ∀ i v, (ledger w.trace).required i = some v →
    if i = w.frame_index then v ≤ w.completed else v ≤ w.fence_values i
  safe : NoHazard w.trace

/-- The allocator resets of a trace, oldest first. -/
def resets {N : Nat} (t : List (Event N)) : List (Fin N × Nat) :=
  t.filterMap fun e => match e with
    | Event.AllocatorReset s c => some (s, c)
    | _ => none

/-- The submissions (`ExecuteCommandLists`) of a trace, oldest first, by slot. -/
def submissions {N : Nat} (t : List (Event N)) : List (Fin N) :=
  t.filterMap fun e => match e with
    | Event.ExecuteCommandLists s => some s
    | _ => none

/-- The state in which `OnRender` calls `MoveToNextFrame`. -/
def presented {N : Nat} (g : Nat) (w : World N) : World N :=
  let w := PopulateCommandList g w
  let w := { w with trace := w.trace ++ [Event.ExecuteCommandLists w.frame_index] }
  { w with trace := w.trace ++ [Event.Present] }

/-- The state `WaitForGPU` returns when its wait ends with the fence and queue in state `cq`. -/
def waitedForGPU {N : Nat} (w : World N) (cq : Nat × List Nat) : World N :=
  { w with
    fence_values :=
      Function.update w.fence_values w.frame_index (w.fence_values w.frame_index + 1)
    completed := cq.1
    pending := cq.2
    trace := w.trace ++ [Event.Signal (w.fence_values w.frame_index),
      Event.Wait (w.fence_values w.frame_index)] }

/-- The fence and queue when `WaitForGPU` registers its event. -/
def queueAtDrain {N : Nat} (g : Nat) (w : World N) : Nat × List Nat :=
  process g w.completed (w.pending ++ [w.fence_values w.frame_index])

/-! ## Device primitives: basic facts -/

theorem process_suffix (g c : Nat) (q : List Nat) :
    ((process g c q).1 :: (process g c q).2) <:+ (c :: q) := by
  induction g generalizing c q with
  | zero => simp [process]
  | succ g ih =>
    cases q with
    | nil => simp [process]
    | cons v q =>
      simp only [process]
      exact (ih v q).trans (List.suffix_cons c (v :: q))

theorem waitUntil_spec (v : Nat) (q : List Nat) (c : Nat) (cq : Nat × List Nat)
    (h : waitUntil v q c = some cq) : v ≤ cq.1 ∧ (cq.1 :: cq.2) <:+ (c :: q) := by
  induction q generalizing c with
  | nil =>
    simp only [waitUntil] at h
    split at h
    · cases h; simpa
    · cases h
  | cons x q ih =>
    simp only [waitUntil] at h
    split at h
    · cases h; simpa
    · obtain ⟨h1, h2⟩ := ih x h
      exact ⟨h1, h2.trans (List.suffix_cons c (x :: q))⟩

theorem waitUntil_isSome (v : Nat) (q : List Nat) (c : Nat) (h : ∃ x ∈ c :: q, v ≤ x) :
    ∃ cq, waitUntil v q c = some cq := by
  induction q generalizing c with
  | nil =>
    obtain ⟨x, hx, hv⟩ := h
    simp only [List.mem_singleton] at hx
    subst hx
    exact ⟨(x, []), by simp [waitUntil, hv]⟩
  | cons y q ih =>
    simp only [waitUntil]
    split
    · exact ⟨_, rfl⟩
    · rename_i hc
      apply ih
      obtain ⟨x, hx, hv⟩ := h
      rcases List.mem_cons.1 hx with rfl | hx
      · exact absurd hv hc
      · exact ⟨x, hx, hv⟩

/-- Waiting for a value that is the last entry of the queue and exceeds everything before it
empties the queue. -/
theorem waitUntil_last (v : Nat) (l : List Nat) (hl : ∀ x ∈ l, x < v) (q : List Nat) (c : Nat)
    (h : c :: q = l ++ [v]) : waitUntil v q c = some (v, []) := by
  induction q generalizing c l with
  | nil =>
    cases l with
    | nil => simp at h; subst h; simp [waitUntil]
    | cons a l => simp at h
  | cons x q ih =>
    cases l with
    | nil => simp at h
    | cons a l =>
      simp only [List.cons_append, List.cons.injEq] at h
      obtain ⟨rfl, h⟩ := h
      have hc : ¬ v ≤ c := Nat.not_le.2 (hl c (List.mem_cons_self _ _))
      simp only [waitUntil, hc, if_false]
      exact ih l (fun y hy => hl y (List.mem_cons_of_mem _ hy)) x h

/-- GPU progress never consumes the last entry of a non-empty timeline. -/
theorem process_keeps_last (v g : Nat) (c : Nat) (q l : List Nat) (h : c :: q = l ++ [v]) :
    ∃ k, (process g c q).1 :: (process g c q).2 = k ++ [v] ∧ k <:+ l := by
  induction g generalizing c q l with
  | zero => exact ⟨l, by simpa [process] using h, List.suffix_refl l⟩
  | succ g ih =>
    cases q with
    | nil => exact ⟨l, by simpa [process] using h, List.suffix_refl l⟩
    | cons x q =>
      cases l with
      | nil => simp at h
      | cons a l =>
        simp only [List.cons_append, List.cons.injEq] at h
        obtain ⟨k, hk, hs⟩ := ih x q l h.2
        exact ⟨k, by simpa [process] using hk, hs.trans (List.suffix_cons a l)⟩

/-! ## The two synchronisation functions, unfolded -/

theorem WaitForGPU_eq {N : Nat} (g : Nat) (w : World N) :
    WaitForGPU g w =
      (waitUntil (w.fence_values w.frame_index) (queueAtDrain g w).2 (queueAtDrain g w).1).map
        (waitedForGPU w) := by
  simp only [WaitForGPU, queueAtDrain, World.Signal, World.gpuProgress,
    World.WaitForFence, bind, Option.bind, pure]
  cases h : waitUntil _ _ _ <;> simp [waitedForGPU, h]

/-- In every state whatsoever `WaitForGPU` returns: the value it waits for is in the queue. -/
theorem WaitForGPU_returns {N : Nat} (g : Nat) (w : World N) :
    ∃ cq, waitUntil (w.fence_values w.frame_index) (queueAtDrain g w).2 (queueAtDrain g w).1
        = some cq ∧ WaitForGPU g w = some (waitedForGPU w cq) := by
  obtain ⟨k, hk, -⟩ := process_keeps_last (w.fence_values w.frame_index) g w.completed
    (w.pending ++ [w.fence_values w.frame_index]) (w.completed :: w.pending) (by simp)
  obtain ⟨cq, hcq⟩ := waitUntil_isSome (w.fence_values w.frame_index)
    (queueAtDrain g w).2 (queueAtDrain g w).1
    ⟨w.fence_values w.frame_index, by
      simp only [queueAtDrain]; rw [hk]; simp, le_refl _⟩
  exact ⟨cq, hcq, by rw [WaitForGPU_eq, hcq]; rfl⟩

/-- From a state satisfying the invariant, `WaitForGPU` drains the queue completely. -/
theorem WaitForGPU_drains {N : Nat} (g : Nat) (w : World N) (h : Inv w) :
    WaitForGPU g w = some (waitedForGPU w (w.fence_values w.frame_index, [])) := by
  obtain ⟨k, hk, hs⟩ := process_keeps_last (w.fence_values w.frame_index) g w.completed
    (w.pending ++ [w.fence_values w.frame_index]) (w.completed :: w.pending) (by simp)
  have hlt : ∀ x ∈ k, x < w.fence_values w.frame_index :=
    fun x hx => h.below x (hs.subset hx)
  rw [WaitForGPU_eq, queueAtDrain,
    waitUntil_last (w.fence_values w.frame_index) k hlt _ _ hk]
  rfl

theorem waitedForGPU_inv {N : Nat} (w : World N) (h : Inv w) :
    Inv (waitedForGPU w (w.fence_values w.frame_index, [])) where
  sorted := by simp [waitedForGPU]
  below := by simp [waitedForGPU]
  top := by
    intro i
    simp only [waitedForGPU, Function.update_same]
    by_cases hi : i = w.frame_index
    · subst hi; simp
    · rw [Function.update_noteq hi]; exact Nat.le_succ_of_le (h.top i)
  log := by
    simp only [waitedForGPU, Function.update_same, signals, List.filterMap_append]
    have := h.log
    simp only [signals] at this
    rw [this, List.range_succ]
    simp

theorem MoveToNextFrame_eq {N : Nat} (m : Move N) (w : World N) :
    MoveToNextFrame m w =
      if completedAtQuery m w < w.fence_values m.back_buffer then
        (waitUntil (w.fence_values m.back_buffer) (queueAtWait m w).2 (queueAtWait m w).1).map
          (movedAfterWait m w)
      else some (movedWithoutWait m w) := by
  simp only [MoveToNextFrame, completedAtQuery, queueAtWait, World.Signal, World.gpuProgress,
    World.WaitForFence, bind, Option.bind, pure]
  split
  · cases h : waitUntil _ _ _ <;> simp [movedAfterWait, h]
  · simp [movedWithoutWait]

/-- The timeline right after `MoveToNextFrame` has queued its signal is still sorted. -/
theorem Inv.sorted_signal {N : Nat} {w : World N} (h : Inv w) :
    ((w.completed :: w.pending) ++ [w.fence_values w.frame_index]).Pairwise (· ≤ ·) := by
  rw [List.pairwise_append]
  refine ⟨h.sorted, by simp, ?_⟩
  intro a ha b hb
  simp only [List.mem_singleton] at hb
  subst hb
  exact Nat.le_of_lt (h.below a ha)

theorem Inv.le_signal {N : Nat} {w : World N} (h : Inv w) :
    ∀ x ∈ (w.completed :: w.pending) ++ [w.fence_values w.frame_index],
      x ≤ w.fence_values w.frame_index := by
  intro x hx
  rcases List.mem_append.1 hx with hx | hx
  · exact Nat.le_of_lt (h.below x hx)
  · simp only [List.mem_singleton] at hx; exact hx.le

/-- The invariant is re-established by any state that switches to slot `idx`, stores
`current + 1` for it, has read one more `Signal current`, and whose timeline is a suffix of the
old one extended by `current`. -/
theorem Inv.moved {N : Nat} {w w2 : World N} (h : Inv w) (idx : Fin N)
    (hf : w2.frame_index = idx)
    (hv : w2.fence_values =
      Function.update w.fence_values idx (w.fence_values w.frame_index + 1))
    (ht : signals w2.trace = signals w.trace ++ [w.fence_values w.frame_index])
    (hq : (w2.completed :: w2.pending) <:+
      ((w.completed :: w.pending) ++ [w.fence_values w.frame_index])) : Inv w2 where
  sorted := List.Pairwise.sublist hq.sublist h.sorted_signal
  below := by
    intro x hx
    rw [hf, hv, Function.update_same]
    exact Nat.lt_succ_of_le (h.le_signal x (hq.subset hx))
  top := by
    intro i
    rw [hf, hv, Function.update_same]
    by_cases hi : i = idx
    · subst hi; simp
    · rw [Function.update_noteq hi]; exact Nat.le_succ_of_le (h.top i)
  log := by
    rw [ht, hf, hv, Function.update_same, h.log, List.range_succ]

theorem signals_append {N : Nat} (a b : List (Event N)) :
    signals (a ++ b) = signals a ++ signals b := by
  simp [signals, List.filterMap_append]

/-- From a state satisfying the invariant `MoveToNextFrame` returns, re-establishes the
invariant, and leaves the fence at or above the value that was stored for the new slot. -/
theorem MoveToNextFrame_inv {N : Nat} (m : Move N) (w : World N) (h : Inv w) :
    ∃ w2, MoveToNextFrame m w = some w2 ∧ Inv w2 ∧
      w.fence_values m.back_buffer ≤ w2.completed ∧ w.completed ≤ w2.completed ∧
      (w2 = movedWithoutWait m w ∨ ∃ cq, w2 = movedAfterWait m w cq) := by
  have hq1 := process_suffix m.gpu_before_query w.completed
    (w.pending ++ [w.fence_values w.frame_index])
  have hmono : ∀ x ∈ (w.completed :: w.pending) ++ [w.fence_values w.frame_index],
      w.completed ≤ x := by
    intro x hx
    have := h.sorted_signal
    rw [List.cons_append, List.pairwise_cons] at this
    rcases List.mem_cons.1 hx with rfl | hx
    · exact le_refl _
    · exact this.1 x hx
  rw [MoveToNextFrame_eq]
  split
  · rename_i hlt
    obtain ⟨k, hk, -⟩ := process_keeps_last (w.fence_values w.frame_index) m.gpu_before_query
      w.completed (w.pending ++ [w.fence_values w.frame_index]) (w.completed :: w.pending)
      (by simp)
    obtain ⟨k2, hk2, -⟩ := process_keeps_last (w.fence_values w.frame_index) m.gpu_before_wait
      _ _ k hk
    have hq2 := process_suffix m.gpu_before_wait
      (process m.gpu_before_query w.completed (w.pending ++ [w.fence_values w.frame_index])).1
      (process m.gpu_before_query w.completed (w.pending ++ [w.fence_values w.frame_index])).2
    obtain ⟨cq, hcq⟩ := waitUntil_isSome (w.fence_values m.back_buffer)
      (queueAtWait m w).2 (queueAtWait m w).1
      ⟨w.fence_values w.frame_index, by
        simp only [queueAtWait]; rw [hk2]; simp, h.top _⟩
    obtain ⟨hge, hsuf⟩ := waitUntil_spec _ _ _ _ hcq
    have hall : (cq.1 :: cq.2) <:+
        ((w.completed :: w.pending) ++ [w.fence_values w.frame_index]) :=
      (hsuf.trans hq2).trans hq1
    refine ⟨movedAfterWait m w cq, by rw [hcq]; rfl, ?_, hge, ?_, Or.inr ⟨cq, rfl⟩⟩
    · exact h.moved m.back_buffer rfl rfl (by simp [movedAfterWait, signals_append, signals])
        hall
    · exact hmono _ (hall.subset (List.mem_cons_self _ _))
  · rename_i hge
    refine ⟨movedWithoutWait m w, rfl, ?_, Nat.le_of_not_lt hge, ?_, Or.inl rfl⟩
    · exact h.moved m.back_buffer rfl rfl (by simp [movedWithoutWait, signals_append, signals])
        hq1
    · exact hmono _ (hq1.subset (List.mem_cons_self _ _))

/-! ## Start-up -/

theorem startup_inv {N : Nat} (r : Renderer N) (g : Nat) :
    ∃ w, startup r g = some w ∧ Inv w ∧ w.frame_index = r.frame_index ∧
      w.fence_values = Function.update (fun _ => 0) r.frame_index 1 ∧
      w.trace = [Event.Signal 0, Event.Wait 0] ∧ w.vertices = r.vertices := by
  obtain ⟨cq, hcq, hw⟩ := WaitForGPU_returns g (World.init r)
  obtain ⟨-, hsuf⟩ := waitUntil_spec _ _ _ _ hcq
  have hall : (cq.1 :: cq.2) <:+ [0, 0] := by
    have := hsuf.trans (process_suffix g (World.init r).completed
      ((World.init r).pending ++ [(World.init r).fence_values (World.init r).frame_index]))
    simpa [World.init] using this
  refine ⟨_, hw, ?_, rfl, ?_, ?_, rfl⟩
  · constructor
    · exact List.Pairwise.sublist hall.sublist (by simp)
    · intro x hx
      have hx0 : x = 0 := by
        have := hall.subset hx
        simpa using this
      subst hx0
      simp [waitedForGPU]
    · intro i
      simp only [waitedForGPU, World.init, Function.update_same]
      by_cases hi : i = r.frame_index
      · subst hi; simp
      · rw [Function.update_noteq hi]; exact Nat.zero_le _
    · simp [waitedForGPU, World.init, signals, List.range_succ]
  · simp [waitedForGPU, World.init]
  · simp [waitedForGPU, World.init]

/-! ## Reading traces -/

theorem ledger_append {N : Nat} (t l : List (Event N)) :
    ledger (t ++ l) = l.foldl Ledger.step (ledger t) := by
  simp [ledger, List.foldl_append]

theorem resets_append {N : Nat} (a b : List (Event N)) :
    resets (a ++ b) = resets a ++ resets b := by
  simp [resets, List.filterMap_append]

theorem submissions_append {N : Nat} (a b : List (Event N)) :
    submissions (a ++ b) = submissions a ++ submissions b := by
  simp [submissions, List.filterMap_append]

/-- Appending one event keeps a trace free of hazards when that event, if it is an allocator
reset, respects the value signalled after the slot's last submission. -/
theorem NoHazard.append_single {N : Nat} {t : List (Event N)} (h : NoHazard t) (e : Event N)
    (he : ∀ s c, e = Event.AllocatorReset s c →
      ∀ v, lastSubmissionSignal t s = some v → v ≤ c) : NoHazard (t ++ [e]) := by
  intro i slot c hi v hv
  by_cases hlt : i < t.length
  · rw [List.getElem?_append_left hlt] at hi
    rw [List.take_append_of_le_length (Nat.le_of_lt hlt)] at hv
    exact h i slot c hi v hv
  · have hle : t.length ≤ i := Nat.le_of_not_lt hlt
    rw [List.getElem?_append_right hle] at hi
    have hi0 : i - t.length = 0 := by
      by_contra hne
      obtain ⟨k, hk⟩ := Nat.exists_eq_succ_of_ne_zero hne
      rw [hk] at hi
      simp at hi
    have hit : i = t.length := by omega
    subst hit
    simp only [Nat.sub_self, List.getElem?_cons_zero, Option.some.injEq] at hi
    rw [List.take_left] at hv
    exact he slot c hi v hv

theorem NoHazard.append_other {N : Nat} {t : List (Event N)} (h : NoHazard t)
    (l : List (Event N)) (hl : ∀ e ∈ l, ∀ s c, e ≠ Event.AllocatorReset s c) :
    NoHazard (t ++ l) := by
  induction l generalizing t with
  | nil => simpa using h
  | cons e l ih =>
    have h1 : NoHazard (t ++ [e]) :=
      h.append_single e (fun s c hs => absurd hs (hl e (List.mem_cons_self _ _) s c))
    have := ih h1 (fun x hx => hl x (List.mem_cons_of_mem _ hx))
    simpa using this

/-- The hazard test is not vacuous: a reset of slot `0` with the fence at `0`, after slot `0` was
submitted and `1` was signalled, is rejected. -/
theorem NoHazard_rejects_early_reset :
    ¬ NoHazard [Event.ExecuteCommandLists (0 : Fin 2), Event.Signal 1,
      Event.AllocatorReset (0 : Fin 2) 0] := by
  intro h
  have := h 2 0 0 rfl 1 (by decide)
  omega

/-! ## One iteration of the render loop -/

theorem OnRender_eq {N : Nat} (t : Tick N) (w : World N) :
    OnRender t w = MoveToNextFrame t.move (presented t.gpu_before_reset w) := rfl

theorem presented_frame_index {N : Nat} (g : Nat) (w : World N) :
    (presented g w).frame_index = w.frame_index := rfl

theorem presented_fence_values {N : Nat} (g : Nat) (w : World N) :
    (presented g w).fence_values = w.fence_values := rfl

theorem presented_vertices {N : Nat} (g : Nat) (w : World N) :
    (presented g w).vertices = w.vertices := rfl

theorem presented_completed {N : Nat} (g : Nat) (w : World N) :
    (presented g w).completed = (process g w.completed w.pending).1 := rfl

theorem presented_trace {N : Nat} (g : Nat) (w : World N) :
    (presented g w).trace = w.trace ++
      [Event.AllocatorReset w.frame_index (process g w.completed w.pending).1,
       Event.ExecuteCommandLists w.frame_index, Event.Present] := by
  simp [presented, PopulateCommandList, World.gpuProgress]

theorem presented_inv {N : Nat} (g : Nat) (w : World N) (h : Inv w) : Inv (presented g w) where
  sorted := List.Pairwise.sublist (process_suffix g w.completed w.pending).sublist h.sorted
  below := fun x hx => h.below x ((process_suffix g w.completed w.pending).subset hx)
  top := h.top
  log := by
    rw [presented_trace, signals_append]
    simpa [signals] using h.log

theorem presented_completed_le {N : Nat} (g : Nat) (w : World N) (h : Inv w) :
    w.completed ≤ (presented g w).completed := by
  have hs := h.sorted
  rw [List.pairwise_cons] at hs
  rcases List.mem_cons.1 ((process_suffix g w.completed w.pending).subset
    (List.mem_cons_self _ _)) with hx | hx
  · exact hx.ge
  · exact hs.1 _ hx

/-- The trace `OnRender` leaves behind: the reset of the active slot's allocator, the submission,
the present, the signal of the active slot's fence value, and possibly a wait. -/
theorem OnRender_trace {N : Nat} (t : Tick N) (w w2 : World N)
    (hw : w2 = movedWithoutWait t.move (presented t.gpu_before_reset w) ∨
      ∃ cq, w2 = movedAfterWait t.move (presented t.gpu_before_reset w) cq) :
    ∃ tail, w2.trace = w.trace ++
      [Event.AllocatorReset w.frame_index (presented t.gpu_before_reset w).completed,
       Event.ExecuteCommandLists w.frame_index, Event.Present,
       Event.Signal (w.fence_values w.frame_index)] ++ tail ∧
      (tail = [] ∨ tail = [Event.Wait (w.fence_values t.move.back_buffer)]) := by
  rcases hw with rfl | ⟨cq, rfl⟩
  · exact ⟨[], by simp [movedWithoutWait, presented_trace, presented_completed,
      presented_frame_index, presented_fence_values], Or.inl rfl⟩
  · exact ⟨[Event.Wait (w.fence_values t.move.back_buffer)],
      by simp [movedAfterWait, presented_trace, presented_completed,
        presented_frame_index, presented_fence_values], Or.inr rfl⟩

theorem OnRender_tracked {N : Nat} (t : Tick N) (w : World N) (hI : Inv w) (hT : Tracked w) :
    ∃ w2, OnRender t w = some w2 ∧ Inv w2 ∧ Tracked w2 ∧
      (resets w2.trace).length = (resets w.trace).length + 1 ∧
      (submissions w2.trace).length = (submissions w.trace).length + 1 ∧
      w2.fence_values w2.frame_index = w.fence_values w.frame_index + 1 ∧
      w2.vertices = w.vertices := by
  obtain ⟨w2, hw2, hI2, hreach, -, hform⟩ :=
    MoveToNextFrame_inv t.move (presented t.gpu_before_reset w)
      (presented_inv t.gpu_before_reset w hI)
  obtain ⟨tail, htr, htail⟩ := OnRender_trace t w w2 hform
  have hfi : w2.frame_index = t.move.back_buffer := by
    rcases hform with rfl | ⟨cq, rfl⟩ <;> rfl
  have hfv : w2.fence_values =
      Function.update w.fence_values t.move.back_buffer (w.fence_values w.frame_index + 1) := by
    rcases hform with rfl | ⟨cq, rfl⟩ <;> rfl
  have hvs : w2.vertices = w.vertices := by
    rcases hform with rfl | ⟨cq, rfl⟩ <;> rfl
  have hled : ledger w2.trace = Ledger.mk none
      (Function.update (ledger w.trace).required w.frame_index
        (some (w.fence_values w.frame_index))) := by
    rw [htr, ledger_append, ledger_append]
    rcases htail with rfl | rfl <;> simp [Ledger.step, hT.idle]
  refine ⟨w2, hw2, hI2, ⟨?_, ?_, ?_⟩, ?_, ?_, ?_, hvs⟩
  · rw [hled]
  · intro i v hiv
    rw [hled] at hiv
    simp only at hiv
    rw [hfi, hfv]
    have hreach2 : w.fence_values t.move.back_buffer ≤ w2.completed := hreach
    by_cases hi : i = w.frame_index
    · subst hi
      rw [Function.update_same] at hiv
      cases hiv
      split
      · rename_i hib; rw [← hib] at hreach2; exact hreach2
      · rename_i hib; rw [Function.update_noteq hib]
    · rw [Function.update_noteq hi] at hiv
      have hold := hT.covered i v hiv
      rw [if_neg hi] at hold
      split
      · rename_i hib; subst hib; exact le_trans hold hreach2
      · rename_i hib; rw [Function.update_noteq hib]; exact hold
  · rw [htr, List.append_assoc]
    have h1 : NoHazard (w.trace ++
        [Event.AllocatorReset w.frame_index (presented t.gpu_before_reset w).completed]) := by
      apply hT.safe.append_single
      intro s c hsc v hv
      cases hsc
      have hold := hT.covered w.frame_index v hv
      rw [if_pos rfl] at hold
      exact le_trans hold (presented_completed_le t.gpu_before_reset w hI)
    have h2 := h1.append_other ([Event.ExecuteCommandLists w.frame_index, Event.Present,
      Event.Signal (w.fence_values w.frame_index)] ++ tail) (by
        intro e he s c hec
        subst hec
        rcases htail with rfl | rfl <;> simp at he)
    simpa using h2
  · rw [htr, resets_append, resets_append]
    rcases htail with rfl | rfl <;> simp [resets]
  · rw [htr, submissions_append, submissions_append]
    rcases htail with rfl | rfl <;> simp [submissions]
  · rw [hfi, hfv, Function.update_same]

/-! ## Whole runs -/

theorem startup_tracked {N : Nat} (r : Renderer N) (g : Nat) :
    ∃ w, startup r g = some w ∧ Inv w ∧ Tracked w ∧ resets w.trace = [] ∧
      submissions w.trace = [] ∧ w.fence_values w.frame_index = 1 ∧
      w.vertices = r.vertices := by
  obtain ⟨w, hw, hI, hfi, hfv, htr, hvs⟩ := startup_inv r g
  refine ⟨w, hw, hI, ⟨?_, ?_, ?_⟩, ?_, ?_, ?_, hvs⟩
  · rw [htr]; rfl
  · intro i v hiv
    rw [htr] at hiv
    simp [ledger, Ledger.step] at hiv
  · rw [htr]
    intro i slot c hi
    match i, hi with
    | 0, hi => simp at hi
    | 1, hi => simp at hi
    | k + 2, hi => simp at hi
  · rw [htr]; rfl
  · rw [htr]; rfl
  · rw [hfi, hfv, Function.update_same]

theorem ticks_tracked {N : Nat} (ticks : List (Tick N)) (w : World N) (hI : Inv w)
    (hT : Tracked w) :
    ∃ w2, ticks.foldlM (fun w t => OnRender t w) w = some w2 ∧ Inv w2 ∧ Tracked w2 ∧
      (resets w2.trace).length = (resets w.trace).length + ticks.length ∧
      (submissions w2.trace).length = (submissions w.trace).length + ticks.length ∧
      w2.fence_values w2.frame_index = w.fence_values w.frame_index + ticks.length ∧
      w2.vertices = w.vertices := by
  induction ticks generalizing w with
  | nil => exact ⟨w, rfl, hI, hT, rfl, rfl, rfl, rfl⟩
  | cons t ticks ih =>
    obtain ⟨w1, hw1, hI1, hT1, hr1, hs1, hf1, hv1⟩ := OnRender_tracked t w hI hT
    obtain ⟨w2, hw2, hI2, hT2, hr2, hs2, hf2, hv2⟩ := ih w1 hI1 hT1
    refine ⟨w2, ?_, hI2, hT2, ?_, ?_, ?_, hv2.trans hv1⟩
    · simp only [List.foldlM_cons, hw1, Option.bind_eq_bind, Option.some_bind]
      exact hw2
    · rw [hr2, hr1, List.length_cons]; omega
    · rw [hs2, hs1, List.length_cons]; omega
    · rw [hf2, hf1, List.length_cons]; omega

theorem run_tracked {N : Nat} (r : Renderer N) (g : Nat) (ticks : List (Tick N)) :
    ∃ w, run r g ticks = some w ∧ Inv w ∧ Tracked w ∧
      (resets w.trace).length = ticks.length ∧
      (submissions w.trace).length = ticks.length ∧
      w.fence_values w.frame_index = ticks.length + 1 ∧
      w.vertices = r.vertices := by
  obtain ⟨w0, hw0, hI0, hT0, hr0, hs0, hf0, hv0⟩ := startup_tracked r g
  obtain ⟨w, hw, hI, hT, hr, hs, hf, hv⟩ := ticks_tracked ticks w0 hI0 hT0
  refine ⟨w, ?_, hI, hT, ?_, ?_, ?_, hv.trans hv0⟩
  · simp only [run, hw0, Option.some_bind]
    exact hw
  · rw [hr, hr0]; simp
  · rw [hs, hs0]; simp
  · rw [hf, hf0]; omega

/-- After `k` ticks no fence counter exceeds `k + 1`. -/
theorem run_fence_values_le {N : Nat} (r : Renderer N) (g : Nat) (ticks : List (Tick N)) :
    ∃ w, run r g ticks = some w ∧ ∀ i, w.fence_values i ≤ ticks.length + 1 := by
  obtain ⟨w, hw, hI, -, -, -, hf, -⟩ := run_tracked r g ticks
  exact ⟨w, hw, fun i => hf ▸ hI.top i⟩

theorem MoveToNextFrame_values {N : Nat} (m : Move N) (w : World N) (h : Inv w) :
    ∃ w2, MoveToNextFrame m w = some w2 ∧ Inv w2 ∧ w2.frame_index = m.back_buffer ∧
      w2.fence_values =
        Function.update w.fence_values m.back_buffer (w.fence_values w.frame_index + 1) ∧
      signals w2.trace = signals w.trace ++ [w.fence_values w.frame_index] := by
  obtain ⟨w2, hw2, hI2, -, -, hform⟩ := MoveToNextFrame_inv m w h
  refine ⟨w2, hw2, hI2, ?_, ?_, ?_⟩ <;> rcases hform with rfl | ⟨cq, rfl⟩ <;>
    simp [movedWithoutWait, movedAfterWait, signals_append, signals]

theorem update_mono {N : Nat} (w : World N) (h : Inv w) (idx j : Fin N) :
    w.fence_values j ≤
      Function.update w.fence_values idx (w.fence_values w.frame_index + 1) j := by
  by_cases hj : j = idx
  · subst hj
    rw [Function.update_same]
    exact Nat.le_succ_of_le (h.top j)
  · rw [Function.update_noteq hj]

theorem moves_inv {N : Nat} (moves : List (Move N)) (w : World N) (hI : Inv w) :
    ∃ w2, moves.foldlM (fun w m => MoveToNextFrame m w) w = some w2 ∧ Inv w2 ∧
      ∀ j, w.fence_values j ≤ w2.fence_values j := by
  induction moves generalizing w with
  | nil => exact ⟨w, rfl, hI, fun j => le_refl _⟩
  | cons m moves ih =>
    obtain ⟨w1, hw1, hI1, -, hv1, -⟩ := MoveToNextFrame_values m w hI
    obtain ⟨w2, hw2, hI2, hmono⟩ := ih w1 hI1
    refine ⟨w2, ?_, hI2, fun j => le_trans ?_ (hmono j)⟩
    · simp only [List.foldlM_cons, hw1, Option.bind_eq_bind, Option.some_bind]
      exact hw2
    · rw [hv1]; exact update_mono w hI m.back_buffer j

theorem advance_inv {N : Nat} (r : Renderer N) (g : Nat) (moves : List (Move N)) :
    ∃ w, advance r g moves = some w ∧ Inv w := by
  obtain ⟨w0, hw0, hI0, -⟩ := startup_inv r g
  obtain ⟨w, hw, hI, -⟩ := moves_inv moves w0 hI0
  exact ⟨w, by simp only [advance, hw0, Option.some_bind]; exact hw, hI⟩

theorem advance_append {N : Nat} (r : Renderer N) (g : Nat) (moves more : List (Move N)) :
    advance r g (moves ++ more) =
      (advance r g moves).bind fun w => more.foldlM (fun w m => MoveToNextFrame m w) w := by
  simp only [advance, List.foldlM_append]
  cases startup r g <;> simp

/-- The values signalled after the slots' last submissions are all covered once the fence has
reached the value kept for the active slot. -/
theorem Tracked.required_le {N : Nat} {w : World N} (hI : Inv w) (hT : Tracked w)
    (i : Fin N) (v : Nat) (h : (ledger w.trace).required i = some v) :
    v ≤ w.fence_values w.frame_index := by
  have := hT.covered i v h
  split at this
  · exact le_trans this (Nat.le_of_lt (hI.below _ (List.mem_cons_self _ _)))
  · exact le_trans this (hI.top i)

/-! ## Frame synchronisation: the properties -/

/-- C1: for every frame count `N` (in particular every `N ≥ 2`), every sequence of back-buffer
indices and every GPU schedule, the run "start-up, then `OnRender` once per tick" returns, resets
exactly one allocator per tick, and at every such reset the fence's completed value is at least
the value signalled right after the most recent submission of the slot being reset (nothing is
required of a slot that has never been submitted). -/
theorem C1_no_allocator_reset_before_fence {N : Nat} (r : Renderer N) (g : Nat)
    (ticks : List (Tick N)) :
    ∃ w, run r g ticks = some w ∧ (resets w.trace).length = ticks.length ∧
      ∀ (i : Nat) (slot : Fin N) (c : Nat),
        w.trace[i]? = some (Event.AllocatorReset slot c) →
        ∀ v, lastSubmissionSignal (w.trace.take i) slot = some v → v ≤ c := by
  obtain ⟨w, hw, -, hT, hr, -⟩ := run_tracked r g ticks
  exact ⟨w, hw, hr, hT.safe⟩

/-- C2: `MoveToNextFrame` registers a wait exactly when the completed value it reads is strictly
below the value stored for the new active slot, the slot being the index read back from the swap
chain.  It can only fail to return in that case; when it returns the active slot is the index
read back, a wait on the stored value is in the new part of the trace iff the strict test held,
and no other wait is; when the stored value equals the completed value it returns without
waiting. -/
theorem C2_wait_iff_fence_strictly_behind {N : Nat} (m : Move N) (w : World N) :
    (MoveToNextFrame m w = none → completedAtQuery m w < w.fence_values m.back_buffer) ∧
    (∀ w2, MoveToNextFrame m w = some w2 →
      w2.frame_index = m.back_buffer ∧
      (completedAtQuery m w < w.fence_values m.back_buffer ↔
        Event.Wait (w.fence_values m.back_buffer) ∈ w2.trace.drop w.trace.length) ∧
      (∀ v, Event.Wait v ∈ w2.trace.drop w.trace.length → v = w.fence_values m.back_buffer) ∧
      (completedAtQuery m w < w.fence_values m.back_buffer →
        w.fence_values m.back_buffer ≤ w2.completed)) ∧
    (completedAtQuery m w = w.fence_values m.back_buffer →
      ∃ w2, MoveToNextFrame m w = some w2 ∧
        w2.trace = w.trace ++ [Event.Signal (w.fence_values w.frame_index)]) := by
  rw [MoveToNextFrame_eq]
  refine ⟨?_, ?_, ?_⟩
  · intro h
    by_contra hlt
    rw [if_neg hlt] at h
    cases h
  · intro w2 h
    by_cases hlt : completedAtQuery m w < w.fence_values m.back_buffer
    · rw [if_pos hlt] at h
      obtain ⟨cq, hcq, rfl⟩ := Option.map_eq_some'.1 h
      refine ⟨rfl, ?_, ?_, fun _ => (waitUntil_spec _ _ _ _ hcq).1⟩
      · simp [movedAfterWait, hlt]
      · intro v hv
        simp [movedAfterWait] at hv
        exact hv
    · rw [if_neg hlt] at h
      cases h
      refine ⟨rfl, ?_, ?_, fun h => absurd h hlt⟩
      · simp [movedWithoutWait, hlt]
      · intro v hv
        simp [movedWithoutWait] at hv
  · intro heq
    rw [if_neg (by omega)]
    exact ⟨_, rfl, rfl⟩

/-- C3: in every state reached from start-up by any number of `MoveToNextFrame` calls with
arbitrary swap-chain indices, one more call returns, signals the active slot's value, makes the
index read back the active slot and stores (signalled value + 1) for it; that value is strictly
above the slot's previous value and strictly above every other slot's value, every other slot
keeps its value, so no value decreases, and the slot just left and the slot just entered (when
different) hold different values.  Over any further sequence of calls no slot's value
decreases. -/
theorem C3_fence_values_increase {N : Nat} (r : Renderer N) (g : Nat) (moves : List (Move N))
    (m : Move N) (more : List (Move N)) :
    ∃ w w2 w3, advance r g moves = some w ∧ MoveToNextFrame m w = some w2 ∧
      advance r g (moves ++ more) = some w3 ∧
      signals w2.trace = signals w.trace ++ [w.fence_values w.frame_index] ∧
      w2.frame_index = m.back_buffer ∧
      w2.fence_values m.back_buffer = w.fence_values w.frame_index + 1 ∧
      w.fence_values m.back_buffer < w2.fence_values m.back_buffer ∧
      (∀ j, j ≠ m.back_buffer →
        w2.fence_values j < w2.fence_values m.back_buffer ∧
        w2.fence_values j = w.fence_values j) ∧
      (∀ j, w.fence_values j ≤ w2.fence_values j) ∧
      (w.frame_index ≠ m.back_buffer →
        w2.fence_values w.frame_index ≠ w2.fence_values m.back_buffer) ∧
      (∀ j, w.fence_values j ≤ w3.fence_values j) := by
  obtain ⟨w, hw, hI⟩ := advance_inv r g moves
  obtain ⟨w2, hw2, -, hfi, hfv, hsig⟩ := MoveToNextFrame_values m w hI
  obtain ⟨w3, hw3, -, hmono⟩ := moves_inv more w hI
  have hother : ∀ j, j ≠ m.back_buffer →
      w2.fence_values j < w2.fence_values m.back_buffer ∧
      w2.fence_values j = w.fence_values j := by
    intro j hj
    rw [hfv, Function.update_same, Function.update_noteq hj]
    exact ⟨Nat.lt_succ_of_le (hI.top j), rfl⟩
  refine ⟨w, w2, w3, hw, hw2, ?_, hsig, hfi, ?_, ?_, hother, ?_, ?_, hmono⟩
  · rw [advance_append, hw]; exact hw3
  · rw [hfv, Function.update_same]
  · rw [hfv, Function.update_same]; exact Nat.lt_succ_of_le (hI.top _)
  · intro j; rw [hfv]; exact update_mono w hI m.back_buffer j
  · intro hne; exact Nat.ne_of_lt (hother _ hne).1

/-- C4: with two slots, for every sequence of back-buffer indices and every GPU schedule, the run
"start-up, then `k` ticks" returns, has made `k` submissions, and has signalled the values
`0, 1, ..., k` in this order (`0` by start-up, then `i` by the `i`-th tick), so the last value
signalled is `k`; after 100 ticks it is 100, the number of submissions made. -/
theorem C4_signalled_value_counts_submissions :
    (∀ (r : Renderer 2) (g : Nat) (ticks : List (Tick 2)),
      ∃ w, run r g ticks = some w ∧
        (submissions w.trace).length = ticks.length ∧
        signals w.trace = List.range (ticks.length + 1) ∧
        (signals w.trace).getLast? = some ticks.length) ∧
    (∀ (r : Renderer 2) (g : Nat) (ticks : List (Tick 2)), ticks.length = 100 →
      ∃ w, run r g ticks = some w ∧
        (submissions w.trace).length = 100 ∧
        (signals w.trace).getLast? = some 100) := by
  have key : ∀ (r : Renderer 2) (g : Nat) (ticks : List (Tick 2)),
      ∃ w, run r g ticks = some w ∧
        (submissions w.trace).length = ticks.length ∧
        signals w.trace = List.range (ticks.length + 1) ∧
        (signals w.trace).getLast? = some ticks.length := by
    intro r g ticks
    obtain ⟨w, hw, hI, -, -, hs, hf, -⟩ := run_tracked r g ticks
    have hlog : signals w.trace = List.range (ticks.length + 1) := by rw [hI.log, hf]
    refine ⟨w, hw, hs, hlog, ?_⟩
    rw [hlog, List.range_succ, List.getLast?_append]
    simp
  refine ⟨key, ?_⟩
  intro r g ticks hlen
  obtain ⟨w, hw, hs, -, hl⟩ := key r g ticks
  exact ⟨w, hw, by rw [hs, hlen], by rw [hl, hlen]⟩

/-- Witness for C4: one hundred ticks that always get back buffer `0` from a GPU that makes no
progress on its own. -/
theorem C4_signalled_value_counts_submissions_witness :
    ∃ w, run (sampleRenderer (0 : Fin 2) []) 0 (List.replicate 100 (sampleTick (0 : Fin 2)))
        = some w ∧
      (submissions w.trace).length = 100 ∧ (signals w.trace).getLast? = some 100 :=
  C4_signalled_value_counts_submissions.2 _ 0 _ (List.length_replicate _ _)

/-- C5: in every state reached from start-up by any sequence of ticks, the value `WaitForGPU`
signals and waits for, `fence_values[frame_index]`, is strictly above every value signalled
before and at least every slot's stored value; `OnDestroy` returns, and when it does the queue is
empty and the fence's completed value is that value, hence at least every value ever signalled
and at least the value signalled after every slot's last submission. -/
theorem C5_WaitForGPU_drains_queue {N : Nat} (r : Renderer N) (g : Nat) (ticks : List (Tick N))
    (gd : Nat) :
    ∃ w w2, run r g ticks = some w ∧ OnDestroy gd w = some w2 ∧
      (∀ v ∈ signals w.trace, v < w.fence_values w.frame_index) ∧
      (∀ i, w.fence_values i ≤ w.fence_values w.frame_index) ∧
      w2.trace = w.trace ++ [Event.Signal (w.fence_values w.frame_index),
        Event.Wait (w.fence_values w.frame_index)] ∧
      w2.pending = [] ∧
      w2.completed = w.fence_values w.frame_index ∧
      (∀ v ∈ signals w2.trace, v ≤ w2.completed) ∧
      (∀ slot v, lastSubmissionSignal w2.trace slot = some v → v ≤ w2.completed) := by
  obtain ⟨w, hw, hI, hT, -⟩ := run_tracked r g ticks
  have hbelow : ∀ v ∈ signals w.trace, v < w.fence_values w.frame_index := by
    intro v hv
    rw [hI.log] at hv
    exact List.mem_range.1 hv
  refine ⟨w, _, hw, WaitForGPU_drains gd w hI, hbelow, hI.top, rfl, rfl, rfl, ?_, ?_⟩
  · intro v hv
    simp only [waitedForGPU, signals_append] at hv ⊢
    rcases List.mem_append.1 hv with hv | hv
    · exact Nat.le_of_lt (hbelow v hv)
    · simp [signals] at hv
      exact hv.le
  · intro slot v hv
    have hled : ledger (waitedForGPU w (w.fence_values w.frame_index, [])).trace =
        ledger w.trace := by
      simp only [waitedForGPU]
      rw [ledger_append]
      simp [Ledger.step, hT.idle]
    simp only [lastSubmissionSignal] at hv
    rw [hled] at hv
    exact hT.required_le hI slot v hv

/-- C6: two `WaitForGPU` calls in a row, under any GPU schedule and from any state in which the
active slot's counter can be incremented twice within the `UINT64` range, both return; each waits
on the value it has just signalled, the second one on a value exactly one greater; afterwards the
active slot's value is two greater than before while `frame_index` and the other slots' values
are unchanged.  In every state reached from start-up by ticks the first call leaves no GPU work
pending, and the second wait ends with the fence at exactly the value the second call signalled,
the queue being empty again. -/
theorem C6_WaitForGPU_twice :
    (∀ {N : Nat} (w : World N) (g1 g2 : Nat), w.fence_values w.frame_index + 2 < 2 ^ 64 →
      ∃ w1 w2, WaitForGPU g1 w = some w1 ∧ WaitForGPU g2 w1 = some w2 ∧
        w2.trace = w.trace ++
          [Event.Signal (w.fence_values w.frame_index),
           Event.Wait (w.fence_values w.frame_index),
           Event.Signal (w.fence_values w.frame_index + 1),
           Event.Wait (w.fence_values w.frame_index + 1)] ∧
        w.fence_values w.frame_index ≤ w1.completed ∧
        w.fence_values w.frame_index + 1 ≤ w2.completed ∧
        w2.frame_index = w.frame_index ∧
        w2.fence_values w.frame_index = w.fence_values w.frame_index + 2 ∧
        (∀ j, j ≠ w.frame_index → w2.fence_values j = w.fence_values j)) ∧
    (∀ {N : Nat} (r : Renderer N) (g : Nat) (ticks : List (Tick N)) (g1 g2 : Nat),
      ∃ w w1 w2, run r g ticks = some w ∧ WaitForGPU g1 w = some w1 ∧
        WaitForGPU g2 w1 = some w2 ∧
        w1.pending = [] ∧ w1.completed = w.fence_values w.frame_index ∧
        w2.pending = [] ∧ w2.completed = w.fence_values w.frame_index + 1) := by
  constructor
  · intro N w g1 g2 _
    obtain ⟨cq1, hcq1, h1⟩ := WaitForGPU_returns g1 w
    obtain ⟨cq2, hcq2, h2⟩ := WaitForGPU_returns g2 (waitedForGPU w cq1)
    have hv1 : (waitedForGPU w cq1).fence_values (waitedForGPU w cq1).frame_index =
        w.fence_values w.frame_index + 1 := by
      simp [waitedForGPU]
    rw [hv1] at hcq2
    refine ⟨_, _, h1, h2, ?_, (waitUntil_spec _ _ _ _ hcq1).1,
      (waitUntil_spec _ _ _ _ hcq2).1, rfl, ?_, ?_⟩
    · simp [waitedForGPU]
    · simp [waitedForGPU]
    · intro j hj
      simp [waitedForGPU, Function.update_noteq hj]
  · intro N r g ticks g1 g2
    obtain ⟨w, hw, hI, -⟩ := run_tracked r g ticks
    have h1 := WaitForGPU_drains g1 w hI
    have hI1 := waitedForGPU_inv w hI
    have h2 := WaitForGPU_drains g2 _ hI1
    refine ⟨w, _, _, hw, h1, h2, rfl, rfl, rfl, ?_⟩
    simp [waitedForGPU]

/-- Witness for C6: two `WaitForGPU` calls in the state in which `LoadAssets` reaches its own
`WaitForGPU` (all counters zero), with a GPU that makes no progress of its own. -/
theorem C6_WaitForGPU_twice_witness :
    sampleWorld.fence_values sampleWorld.frame_index + 2 < 2 ^ 64 ∧
    ∃ w1 w2, WaitForGPU 0 sampleWorld = some w1 ∧ WaitForGPU 0 w1 = some w2 ∧
      w2.trace = sampleWorld.trace ++
        [Event.Signal (sampleWorld.fence_values sampleWorld.frame_index),
         Event.Wait (sampleWorld.fence_values sampleWorld.frame_index),
         Event.Signal (sampleWorld.fence_values sampleWorld.frame_index + 1),
         Event.Wait (sampleWorld.fence_values sampleWorld.frame_index + 1)] ∧
      sampleWorld.fence_values sampleWorld.frame_index ≤ w1.completed ∧
      sampleWorld.fence_values sampleWorld.frame_index + 1 ≤ w2.completed ∧
      w2.frame_index = sampleWorld.frame_index ∧
      w2.fence_values sampleWorld.frame_index =
        sampleWorld.fence_values sampleWorld.frame_index + 2 ∧
      (∀ j, j ≠ sampleWorld.frame_index → w2.fence_values j = sampleWorld.fence_values j) :=
  ⟨by decide, C6_WaitForGPU_twice.1 sampleWorld 0 0 (by decide)⟩

/-! ## Command recording: the properties -/

/-- C7: for every renderer state (any vertex list, of size `K`, and any active slot) and any GPU
progress, the calls `PopulateCommandList` makes on the command list are: set-up calls, the
PRESENT to RENDER_TARGET transition of `render_targets[frame_index]`, set-up calls, the clear,
set-up calls, the one draw call `DrawInstanced(K, 1, 0, 0)`, set-up calls, the RENDER_TARGET to
PRESENT transition of the same render target, and `Close`.  So there is exactly one draw, exactly
one transition in each direction, the first transition precedes clear and draw, the clear
precedes the draw, and the reverse transition is the last call before the list is closed. -/
theorem C7_recorded_commands {N : Nat} (g : Nat) (w : World N) :
    (∃ pre mid1 mid2 mid3 : List (Command N),
      (PopulateCommandList g w).command_list =
        pre ++ [Command.ResourceBarrier w.frame_index ResourceState.PRESENT
                  ResourceState.RENDER_TARGET] ++
        mid1 ++ [Command.ClearRenderTargetView w.frame_index] ++
        mid2 ++ [Command.DrawInstanced w.vertices.length 1 0 0] ++
        mid3 ++ [Command.ResourceBarrier w.frame_index ResourceState.RENDER_TARGET
                  ResourceState.PRESENT, Command.Close] ∧
      ∀ c ∈ pre ++ mid1 ++ mid2 ++ mid3, c.isSetup = true) ∧
    (PopulateCommandList g w).command_list.filter Command.isDraw =
      [Command.DrawInstanced w.vertices.length 1 0 0] ∧
    (PopulateCommandList g w).command_list.filter Command.isBarrier =
      [Command.ResourceBarrier w.frame_index ResourceState.PRESENT ResourceState.RENDER_TARGET,
       Command.ResourceBarrier w.frame_index ResourceState.RENDER_TARGET
         ResourceState.PRESENT] := by
  refine ⟨⟨[Command.SetGraphicsRootSignature, Command.SetDescriptorHeaps,
      Command.SetGraphicsRootDescriptorTable, Command.RSSetViewports,
      Command.RSSetScissorRects],
    [Command.OMSetRenderTargets w.frame_index],
    [Command.IASetPrimitiveTopology, Command.IASetVertexBuffers], [], rfl, ?_⟩, rfl, rfl⟩
  intro c hc
  simp only [List.append_nil, List.cons_append, List.nil_append, List.mem_cons,
    List.mem_singleton, List.not_mem_nil, or_false] at hc
  rcases hc with rfl | rfl | rfl | rfl | rfl | rfl | rfl | rfl <;> rfl

/-! ## Keyboard input: the properties -/

/-- C8: in every renderer state, key-down followed by key-up of the rotate-right key (0x44)
leaves `delta_rotation` exactly zero and every other member, in particular `delta_forward`,
`angle` and `eye_position`, as it was; the same holds for the rotate-left key (0x41); for the
forward and back keys (0x57, 0x53) it is `delta_forward` that ends exactly zero and
`delta_rotation` (like every other member) that is untouched. -/
theorem C8_key_down_then_up {N : Nat} (r : Renderer N) :
    OnKeyUp 0x44 (OnKeyDown 0x44 r) = { r with delta_rotation := float32.zero } ∧
    OnKeyUp 0x41 (OnKeyDown 0x41 r) = { r with delta_rotation := float32.zero } ∧
    OnKeyUp 0x57 (OnKeyDown 0x57 r) = { r with delta_forward := float32.zero } ∧
    OnKeyUp 0x53 (OnKeyDown 0x53 r) = { r with delta_forward := float32.zero } ∧
    (OnKeyUp 0x44 (OnKeyDown 0x44 r)).delta_rotation = float32.zero ∧
    (OnKeyUp 0x44 (OnKeyDown 0x44 r)).delta_forward = r.delta_forward ∧
    (OnKeyUp 0x44 (OnKeyDown 0x44 r)).angle = r.angle ∧
    (OnKeyUp 0x44 (OnKeyDown 0x44 r)).eye_position = r.eye_position ∧
    (OnKeyDown 0x44 r).delta_rotation = float32.step ∧
    (OnKeyDown 0x41 r).delta_rotation = float32.negStep ∧
    (OnKeyDown 0x57 r).delta_forward = float32.step ∧
    (OnKeyDown 0x53 r).delta_forward = float32.negStep := by
  have hd : (((0x44 : Fin 256).val : Int) = A_CODE + ('d'.toNat : Int)) := by decide
  have ha : (((0x41 : Fin 256).val : Int) = A_CODE + ('a'.toNat : Int)) := by decide
  have hw : (((0x57 : Fin 256).val : Int) = A_CODE + ('w'.toNat : Int)) := by decide
  have hs : (((0x53 : Fin 256).val : Int) = A_CODE + ('s'.toNat : Int)) := by decide
  have had : ¬ (((0x41 : Fin 256).val : Int) = A_CODE + ('d'.toNat : Int)) := by decide
  have hwd : ¬ (((0x57 : Fin 256).val : Int) = A_CODE + ('d'.toNat : Int)) := by decide
  have hwa : ¬ (((0x57 : Fin 256).val : Int) = A_CODE + ('a'.toNat : Int)) := by decide
  have hsd : ¬ (((0x53 : Fin 256).val : Int) = A_CODE + ('d'.toNat : Int)) := by decide
  have hsa : ¬ (((0x53 : Fin 256).val : Int) = A_CODE + ('a'.toNat : Int)) := by decide
  have hsw : ¬ (((0x53 : Fin 256).val : Int) = A_CODE + ('w'.toNat : Int)) := by decide
  have e1 : OnKeyUp 0x44 (OnKeyDown 0x44 r) = { r with delta_rotation := float32.zero } := by
    rw [OnKeyDown, if_pos hd, OnKeyUp, if_pos (Or.inl hd)]
  have e2 : OnKeyUp 0x41 (OnKeyDown 0x41 r) = { r with delta_rotation := float32.zero } := by
    rw [OnKeyDown, if_neg had, if_pos ha, OnKeyUp, if_pos (Or.inr ha)]
  have e3 : OnKeyUp 0x57 (OnKeyDown 0x57 r) = { r with delta_forward := float32.zero } := by
    rw [OnKeyDown, if_neg hwd, if_neg hwa, if_pos hw, OnKeyUp,
      if_neg (not_or.2 ⟨hwd, hwa⟩), if_pos (Or.inl hw)]
  have e4 : OnKeyUp 0x53 (OnKeyDown 0x53 r) = { r with delta_forward := float32.zero } := by
    rw [OnKeyDown, if_neg hsd, if_neg hsa, if_neg hsw, if_pos hs, OnKeyUp,
      if_neg (not_or.2 ⟨hsd, hsa⟩), if_pos (Or.inr hs)]
  refine ⟨e1, e2, e3, e4, ?_, ?_, ?_, ?_, ?_, ?_, ?_, ?_⟩
  · rw [e1]
  · rw [e1]
  · rw [e1]
  · rw [e1]
  · rw [OnKeyDown, if_pos hd]
  · rw [OnKeyDown, if_neg had, if_pos ha]
  · rw [OnKeyDown, if_neg hwd, if_neg hwa, if_pos hw]
  · rw [OnKeyDown, if_neg hsd, if_neg hsa, if_neg hsw, if_pos hs]

/-! ## Pipeline start-up: the properties -/

theorem ThrowIfFailed_ok (hr : HRESULT) :
    ThrowIfFailed hr = Except.ok () ↔ FAILED hr = false := by
  unfold ThrowIfFailed
  cases h : FAILED hr <;> simp

theorem ThrowIfAnyFailed_ok (l : List HRESULT) (h : ThrowIfAnyFailed l = Except.ok ()) :
    ∀ hr ∈ l, FAILED hr = false := by
  induction l with
  | nil => simp
  | cons a l ih =>
    simp only [ThrowIfAnyFailed, bind, Except.bind] at h
    split at h
    · cases h
    · rename_i u hu
      intro hr hmem
      rcases List.mem_cons.1 hmem with rfl | hmem
      · exact (ThrowIfFailed_ok hr).1 hu
      · exact ih h hr hmem

theorem Except.bind_unit_ok {β : Type} {x : Except HRESULT Unit}
    {f : Unit → Except HRESULT β} {b : β} (h : x >>= f = Except.ok b) :
    x = Except.ok () ∧ f () = Except.ok b := by
  cases x with
  | error e => cases h
  | ok u => exact ⟨rfl, h⟩

theorem ThrowIfAnyFailed_of_all (l : List HRESULT) (h : ∀ hr ∈ l, FAILED hr = false) :
    ThrowIfAnyFailed l = Except.ok () := by
  induction l with
  | nil => rfl
  | cons a l ih =>
    have ha : ThrowIfFailed a = Except.ok () :=
      (ThrowIfFailed_ok a).2 (h a (List.mem_cons_self _ _))
    simp only [ThrowIfAnyFailed, ha, bind, Except.bind]
    exact ih (fun hr hmem => h hr (List.mem_cons_of_mem _ hmem))

theorem FAILED_SUCCEEDED (hr : HRESULT) : FAILED hr = !SUCCEEDED hr := by
  unfold FAILED SUCCEEDED
  by_cases h : hr < 0
  · have h2 : ¬ (0 ≤ hr) := not_le.2 h
    simp [h, h2]
  · have h2 : 0 ≤ hr := not_lt.1 h
    simp [h, h2]

/-- When `LoadPipeline` returns normally, every creation call has succeeded.  For the command
queue, whose result is not checked itself, this follows from the swap chain having been created
on it. -/
theorem LoadPipeline_ok_created {N : Nat} (api : PipelineCalls N) (p : Pipeline N)
    (h : LoadPipeline api = Except.ok p) : AllCreated api := by
  unfold LoadPipeline at h
  obtain ⟨h1, h⟩ := Except.bind_unit_ok h
  obtain ⟨h2, h⟩ := Except.bind_unit_ok h
  obtain ⟨h3, h⟩ := Except.bind_unit_ok h
  obtain ⟨h4, h⟩ := Except.bind_unit_ok h
  obtain ⟨h5, h⟩ := Except.bind_unit_ok h
  obtain ⟨h6, h⟩ := Except.bind_unit_ok h
  obtain ⟨h7, h⟩ := Except.bind_unit_ok h
  obtain ⟨h8, h⟩ := Except.bind_unit_ok h
  obtain ⟨h9, -⟩ := Except.bind_unit_ok h
  have hswap := (ThrowIfFailed_ok _).1 h4
  have hqueue : FAILED api.CreateCommandQueue = false := by
    cases hs : SUCCEEDED api.CreateCommandQueue with
    | true => rw [FAILED_SUCCEEDED, hs]; rfl
    | false =>
      rw [hs, api.null_queue_rejected] at hswap
      cases hswap
  refine ⟨(ThrowIfFailed_ok _).1 h1, (ThrowIfFailed_ok _).1 h2, ?_, hqueue, hswap,
    (ThrowIfFailed_ok _).1 h5, (ThrowIfFailed_ok _).1 h6, (ThrowIfFailed_ok _).1 h7, ?_,
    (ThrowIfFailed_ok _).1 h9⟩
  · intro i
    exact ThrowIfAnyFailed_ok _ h3 _ (List.mem_map.2 ⟨i, List.mem_finRange i, rfl⟩)
  · intro i
    exact ThrowIfAnyFailed_ok _ h8 _ (List.mem_map.2 ⟨i, List.mem_finRange i, rfl⟩)

/-- When every call succeeds, `LoadPipeline` returns normally. -/
theorem LoadPipeline_of_created {N : Nat} (api : PipelineCalls N) (h : AllCreated api) :
    LoadPipeline api = Except.ok
      { hardware_adapter := api.adapters.findIdx? SUCCEEDED, command_queue := true,
        frame_index := api.GetCurrentBackBufferIndex } := by
  obtain ⟨h1, h2, h3, hq, h4, h5, h6, h7, h8, h9⟩ := h
  have hs : SUCCEEDED api.CreateCommandQueue = true := by
    rw [FAILED_SUCCEEDED] at hq
    cases hsq : SUCCEEDED api.CreateCommandQueue with
    | true => rfl
    | false => rw [hsq] at hq; cases hq
  rw [hs] at h4
  have e3 : ThrowIfAnyFailed ((List.finRange N).map api.CreateCommandAllocator) =
      Except.ok () := by
    apply ThrowIfAnyFailed_of_all
    intro hr hmem
    obtain ⟨i, -, rfl⟩ := List.mem_map.1 hmem
    exact h3 i
  have e8 : ThrowIfAnyFailed ((List.finRange N).map api.GetBuffer) = Except.ok () := by
    apply ThrowIfAnyFailed_of_all
    intro hr hmem
    obtain ⟨i, -, rfl⟩ := List.mem_map.1 hmem
    exact h8 i
  simp only [LoadPipeline, bind, Except.bind, pure, Except.pure, hs, e3, e8,
    (ThrowIfFailed_ok _).2 h1, (ThrowIfFailed_ok _).2 h2, (ThrowIfFailed_ok _).2 h4,
    (ThrowIfFailed_ok _).2 h5, (ThrowIfFailed_ok _).2 h6, (ThrowIfFailed_ok _).2 h7,
    (ThrowIfFailed_ok _).2 h9]

/-- C10: `LoadPipeline` throws whenever one of its creation calls fails (the factory, the device,
any of the `N` command allocators, the command queue, the swap chain, the RTV descriptor heap,
any swap-chain buffer retrieval, the CBV descriptor heap), and it returns normally only if every
creation call has succeeded.  The result of `CreateCommandQueue` is the one result the function
does not check itself: after a failed queue creation it is the swap-chain creation, handed the
null queue, that fails and throws. -/
theorem C10_LoadPipeline_throws_on_failed_creation {N : Nat} (api : PipelineCalls N) :
    ((FAILED api.CreateDXGIFactory2 = true ∨
      FAILED (api.D3D12CreateDevice (api.adapters.findIdx? SUCCEEDED)) = true ∨
      (∃ i, FAILED (api.CreateCommandAllocator i) = true) ∨
      FAILED api.CreateCommandQueue = true ∨
      FAILED (api.CreateSwapChainForHwnd (SUCCEEDED api.CreateCommandQueue)) = true ∨
      FAILED api.CreateDescriptorHeapRTV = true ∨
      (∃ i, FAILED (api.GetBuffer i) = true) ∨
      FAILED api.CreateDescriptorHeapCBV = true) →
      ∃ e, LoadPipeline api = Except.error e) ∧
    (∀ p, LoadPipeline api = Except.ok p →
      FAILED api.CreateDXGIFactory2 = false ∧
      FAILED (api.D3D12CreateDevice (api.adapters.findIdx? SUCCEEDED)) = false ∧
      (∀ i, FAILED (api.CreateCommandAllocator i) = false) ∧
      FAILED api.CreateCommandQueue = false ∧
      FAILED (api.CreateSwapChainForHwnd (SUCCEEDED api.CreateCommandQueue)) = false ∧
      FAILED api.CreateDescriptorHeapRTV = false ∧
      (∀ i, FAILED (api.GetBuffer i) = false) ∧
      FAILED api.CreateDescriptorHeapCBV = false ∧
      p.command_queue = true) ∧
    (AllCreated api → ∃ p, LoadPipeline api = Except.ok p) := by
  refine ⟨?_, ?_, fun h => ⟨_, LoadPipeline_of_created api h⟩⟩
  · intro hfail
    cases hres : LoadPipeline api with
    | error e => exact ⟨e, rfl⟩
    | ok p =>
      obtain ⟨h1, h2, h3, hq, h4, -, -, h7, h8, h9⟩ := LoadPipeline_ok_created api p hres
      rcases hfail with h | h | ⟨i, h⟩ | h | h | h | ⟨i, h⟩ | h
      · rw [h1] at h; cases h
      · rw [h2] at h; cases h
      · rw [h3 i] at h; cases h
      · rw [hq] at h; cases h
      · rw [h4] at h; cases h
      · rw [h7] at h; cases h
      · rw [h8 i] at h; cases h
      · rw [h9] at h; cases h
  · intro p hres
    have hall := LoadPipeline_ok_created api p hres
    obtain ⟨h1, h2, h3, hq, h4, -, -, h7, h8, h9⟩ := LoadPipeline_ok_created api p hres
    refine ⟨h1, h2, h3, hq, h4, h7, h8, h9, ?_⟩
    rw [LoadPipeline_of_created api hall] at hres
    cases hres
    rfl

/-- Witness for C10: with two slots, `CreateCommandQueue` failing with `E_OUTOFMEMORY` and every
other call answering as on a working platform, `LoadPipeline` throws. -/
theorem C10_LoadPipeline_throws_on_failed_creation_witness :
    FAILED (queueFails (0 : Fin 2)).CreateCommandQueue = true ∧
    ∃ e, LoadPipeline (queueFails (0 : Fin 2)) = Except.error e :=
  ⟨by decide,
    (C10_LoadPipeline_throws_on_failed_creation (queueFails (0 : Fin 2))).1
      (Or.inr (Or.inr (Or.inr (Or.inl (by decide)))))⟩

/-! ## Mesh flattening: the properties -/

theorem readVertex_eq (attrib : attrib_t) (materials : List material_t) (mesh : mesh_t)
    (f v : Nat) (h : InRangeAt attrib materials mesh f v) :
    readVertex attrib materials mesh f (faceOffset mesh f) v =
      some (expectedVertex attrib materials mesh f v) := by
  obtain ⟨h1, h2, h3, h4, h5, h6⟩ := h
  have e1 : mesh.indices[faceOffset mesh f + v]? =
      some (mesh.indices.getD (faceOffset mesh f + v) { vertex_index := 0 }) := by
    rw [List.getElem?_eq_getElem h1, List.getD_eq_getElem _ _ h1]
  have e2 : mesh.material_ids[f]? = some (mesh.material_ids.getD f 0) := by
    rw [List.getElem?_eq_getElem h2, List.getD_eq_getElem _ _ h2]
  have e3 : ∀ k : Nat, k ≤ 2 → elemAt attrib.vertices (3 * vertexIndexOf mesh f v + (k : Int)) =
      some (attrib.vertices.getD (3 * (vertexIndexOf mesh f v).toNat + k) float32.zero) := by
    intro k hk
    have hnn : 0 ≤ 3 * vertexIndexOf mesh f v + (k : Int) := by omega
    have htn : (3 * vertexIndexOf mesh f v + (k : Int)).toNat =
        3 * (vertexIndexOf mesh f v).toNat + k := by omega
    have hlt : 3 * (vertexIndexOf mesh f v).toNat + k < attrib.vertices.length := by omega
    rw [elemAt, if_pos hnn, htn, List.getElem?_eq_getElem hlt, List.getD_eq_getElem _ _ hlt]
  have e4 : elemAt materials (mesh.material_ids.getD f 0) =
      some (materials.getD (mesh.material_ids.getD f 0).toNat
        { diffuse := (float32.zero, float32.zero, float32.zero) }) := by
    rw [elemAt, if_pos h5, List.getElem?_eq_getElem h6, List.getD_eq_getElem _ _ h6]
  have e30 := e3 0 (by omega)
  have e31 := e3 1 (by omega)
  have e32 := e3 2 (by omega)
  simp only [Nat.cast_zero, Nat.cast_one, Nat.cast_ofNat, Nat.add_zero] at e30 e31 e32
  simp only [readVertex, e1, Option.bind_eq_bind, Option.some_bind, vertexIndexOf] at *
  rw [e30, e31, e32]
  simp only [Option.some_bind, e2, e4]
  rfl

theorem faceLoop_eq (attrib : attrib_t) (materials : List material_t) (mesh : mesh_t)
    (f : Nat) (vertices : List ColorVertex) (k : Nat)
    (h : ∀ v < k, InRangeAt attrib materials mesh f v) :
    faceLoop attrib materials mesh f (faceOffset mesh f) k vertices =
      some (vertices ++ (List.range k).map (expectedVertex attrib materials mesh f)) := by
  induction k with
  | zero => simp [faceLoop]
  | succ k ih =>
    have ih2 := ih (fun v hv => h v (Nat.lt_succ_of_lt hv))
    simp only [faceLoop] at ih2 ⊢
    rw [List.range_succ, List.foldlM_append, ih2]
    simp [readVertex_eq attrib materials mesh f k (h k (Nat.lt_succ_self k))]

theorem faceOffset_succ (mesh : mesh_t) (k : Nat) (hk : k < mesh.num_face_vertices.length) :
    faceOffset mesh (k + 1) = faceOffset mesh k + mesh.num_face_vertices.getD k 0 := by
  rw [faceOffset, faceOffset, List.sum_take_succ _ _ hk, List.getD_eq_getElem _ _ hk]

theorem faces_eq (attrib : attrib_t) (materials : List material_t) (mesh : mesh_t)
    (vertices : List ColorVertex) (k : Nat) (hk : k ≤ mesh.num_face_vertices.length)
    (h : ∀ f < k, ∀ v < mesh.num_face_vertices.getD f 0, InRangeAt attrib materials mesh f v) :
    (List.range k).foldlM (faceStep attrib materials mesh) (0, vertices) =
      some (faceOffset mesh k,
        vertices ++ (List.range k).flatMap (expectedFace attrib materials mesh)) := by
  induction k with
  | zero => simp [faceOffset]
  | succ k ih =>
    have hlt : k < mesh.num_face_vertices.length := hk
    have ih2 := ih (Nat.le_of_lt hlt) (fun f hf => h f (Nat.lt_succ_of_lt hf))
    have hfv : mesh.num_face_vertices[k]? = some (mesh.num_face_vertices.getD k 0) := by
      rw [List.getElem?_eq_getElem hlt, List.getD_eq_getElem _ _ hlt]
    rw [List.range_succ, List.foldlM_append, ih2]
    simp only [Option.bind_eq_bind, Option.some_bind, List.foldlM_cons, List.foldlM_nil,
      faceStep, hfv, faceLoop_eq attrib materials mesh k _ _ (h k (Nat.lt_succ_self k)),
      List.flatMap_append, faceOffset_succ mesh k hlt]
    simp [expectedFace, List.append_assoc]

theorem meshLoop_eq (attrib : attrib_t) (materials : List material_t) (mesh : mesh_t)
    (vertices : List ColorVertex)
    (h : ∀ f < mesh.num_face_vertices.length, ∀ v < mesh.num_face_vertices.getD f 0,
      InRangeAt attrib materials mesh f v) :
    meshLoop attrib materials mesh vertices =
      some (vertices ++ expectedMesh attrib materials mesh) := by
  rw [meshLoop, faces_eq attrib materials mesh vertices _ (le_refl _) h]
  rfl

theorem loadVertices_eq (attrib : attrib_t) (shapes : List shape_t)
    (materials : List material_t) (vertices : List ColorVertex)
    (h : MeshInRange attrib shapes materials) :
    loadVertices attrib shapes materials vertices =
      some (vertices ++ expectedVertices attrib shapes materials) := by
  induction shapes generalizing vertices with
  | nil => simp [loadVertices, expectedVertices]
  | cons shape shapes ih =>
    have h1 := meshLoop_eq attrib materials shape.mesh vertices
      (h shape (List.mem_cons_self _ _))
    have h2 := ih (vertices ++ expectedMesh attrib materials shape.mesh)
      (fun s hs => h s (List.mem_cons_of_mem _ hs))
    simp only [loadVertices, List.foldlM_cons, h1, Option.bind_eq_bind,
      Option.some_bind] at h2 ⊢
    rw [h2]
    simp [expectedVertices, List.append_assoc]

theorem range_map_getD (l : List Nat) :
    (List.range l.length).map (fun f => l.getD f 0) = l := by
  apply List.ext_getElem
  · simp
  · intro n h1 h2
    simp [List.getElem?_eq_getElem h2]

theorem expectedMesh_length (attrib : attrib_t) (materials : List material_t) (mesh : mesh_t) :
    (expectedMesh attrib materials mesh).length = mesh.num_face_vertices.sum := by
  rw [expectedMesh, List.length_flatMap]
  have : (List.length ∘ expectedFace attrib materials mesh) =
      fun f => mesh.num_face_vertices.getD f 0 := by
    funext f
    simp [expectedFace]
  rw [this, range_map_getD]

theorem expectedVertices_length (attrib : attrib_t) (shapes : List shape_t)
    (materials : List material_t) :
    (expectedVertices attrib shapes materials).length = totalFaceVertices shapes := by
  rw [expectedVertices, List.length_flatMap, totalFaceVertices]
  congr 1
  apply List.map_congr_left
  intro shape _
  exact expectedMesh_length attrib materials shape.mesh

theorem PopulateCommandList_draws {N : Nat} (g : Nat) (w : World N) :
    (PopulateCommandList g w).command_list.filter Command.isDraw =
      [Command.DrawInstanced w.vertices.length 1 0 0] := rfl

/-- C9: for every parsed mesh in which every vertex of every face can be read (index entry and
material id present, vertex index and material id in range), the flattening loop of `LoadAssets`,
started with an empty vertex list, returns; the vertex list it leaves has as many elements as
there are face vertices in all faces of all shapes, and is, in shape, face, vertex order, the
indexed position with the face material's diffuse RGB and alpha 1; and in every later tick the
one draw call `PopulateCommandList` records has that number as its vertex count. -/
theorem C9_flattened_vertices {N : Nat} (attrib : attrib_t) (shapes : List shape_t)
    (materials : List material_t) (r : Renderer N) (hempty : r.vertices = [])
    (hrange : MeshInRange attrib shapes materials) :
    ∃ r2, LoadAssetsVertices attrib shapes materials r = some r2 ∧
      r2.vertices.length = totalFaceVertices shapes ∧
      r2.vertices = expectedVertices attrib shapes materials ∧
      ∀ (g : Nat) (ticks : List (Tick N)) (g2 : Nat),
        ∃ w, run r2 g ticks = some w ∧
          (PopulateCommandList g2 w).command_list.filter Command.isDraw =
            [Command.DrawInstanced (totalFaceVertices shapes) 1 0 0] := by
  have hload := loadVertices_eq attrib shapes materials r.vertices hrange
  rw [hempty, List.nil_append] at hload
  have hlen := expectedVertices_length attrib shapes materials
  refine ⟨{ r with vertices := expectedVertices attrib shapes materials }, ?_, hlen, rfl, ?_⟩
  · rw [LoadAssetsVertices, hempty, hload]; rfl
  · intro g ticks g2
    obtain ⟨w, hw, -, -, -, -, -, hv⟩ := run_tracked
      { r with vertices := expectedVertices attrib shapes materials } g ticks
    refine ⟨w, hw, ?_⟩
    rw [PopulateCommandList_draws, hv, hlen]

/-- Witness for C9: one shape of three triangles over four positions and two materials gives nine
vertices and a draw call of nine vertices. -/
theorem C9_flattened_vertices_witness :
    (sampleRenderer (0 : Fin 2) []).vertices = [] ∧
    MeshInRange sampleAttrib sampleShapes sampleMaterials ∧
    ∃ r2, LoadAssetsVertices sampleAttrib sampleShapes sampleMaterials
        (sampleRenderer (0 : Fin 2) []) = some r2 ∧
      r2.vertices.length = 9 ∧
      r2.vertices = expectedVertices sampleAttrib sampleShapes sampleMaterials ∧
      ∀ (g : Nat) (ticks : List (Tick 2)) (g2 : Nat),
        ∃ w, run r2 g ticks = some w ∧
          (PopulateCommandList g2 w).command_list.filter Command.isDraw =
            [Command.DrawInstanced 9 1 0 0] :=
  ⟨rfl, by decide,
    C9_flattened_vertices sampleAttrib sampleShapes sampleMaterials
      (sampleRenderer (0 : Fin 2) []) rfl (by decide)⟩

end CGLab
